import Mathlib

/-!
A shallow embedding of the Tomasulo-algorithm simulator core
============================================================

This file embeds the pipeline engine of `Tomasulo.py` (class
`TomasuloSimulator`) in Lean 4 and proves properties of it.  GUI code is out
of scope; the embedded parts are: the instruction parser
(`parse_instruction`), the program/memory loader (`load_program`), the
reservation-station pool initialisation (`initialize_reservation_stations`),
the per-cycle engine (`simulate_cycle` with its release, write-back, execute
and issue sweeps), the drivers `step`/`run_to_end` and the terminal
statistics (`show_results`).

Modelling conventions:
* Python machine integers are `Int`; `x & 0xFFFF` on a Python int equals
  `x % 2¹⁶` with a non-negative result, embedded as `Int.emod x 65536`.
* The mutable `Instruction` objects shared between `self.program`,
  `self.instructions` and the stations are held once in `program`;
  the instruction queue and the stations refer to them by list index.
* Fallible operations (Python exceptions: `IndexError`, `ValueError`,
  `TypeError` on `None` arithmetic) are `Option`/`Except`.  Python's
  negative list indexing is not modelled; every claim below operates under
  the R0..R7 precondition where it cannot arise.
* `messagebox.showerror` calls that abort a cycle are modelled by the
  `error_msg` field of the state.
-/

/-- Operand of an instruction: either a register token kept verbatim as a
string (e.g. `"R3"`, Python keeps the token), or an integer literal. -/
inductive Operand where
  | reg (s : String)
  | imm (n : Int)
deriving DecidableEq, Repr

/-- Digit-string value; `none` when empty or not all digits. -/
def pyDigits? (cs : List Char) : Option Nat :=
  if cs ≠ [] ∧ cs.all Char.isDigit then
    some (cs.foldl (fun n c => 10 * n + (c.toNat - 48)) 0)
  else
    none

/-- Python `int(...)` on a separator-free token: optional sign, then digits. -/
def pyIntChars? (cs : List Char) : Option Int :=
  match cs with
  | '-' :: rest => (pyDigits? rest).map (fun n => -(n : Int))
  | '+' :: rest => (pyDigits? rest).map (fun n => (n : Int))
  | _ => (pyDigits? cs).map (fun n => (n : Int))

/-- Python `int(...)` on a string token. -/
def pyInt? (s : String) : Option Int :=
  pyIntChars? s.data

/-- Register index extracted from an operand, as in `int(instr.operands[i][1:])`,
restricted to non-negative results (Python's negative reverse indexing is
outside the modelled range). -/
def regIdx? (o : Operand) : Option Nat :=
  match o with
  | .reg s =>
      match pyIntChars? (s.data.drop 1) with
      | some n => if 0 ≤ n then some n.toNat else none
      | none => none
  | .imm _ => none

/-- The integer payload of an operand (`offset`, `label`). -/
def asImm? (o : Operand) : Option Int :=
  match o with
  | .imm n => some n
  | .reg _ => none

/-- The `Instruction` class: opcode string, positional operands, pc, the four
timestamp slots and the completion flag. -/
structure Instruction where
  opcode : String
  operands : List Operand
  pc : Int
  issue_cycle : Option Nat := none
  start_exec_cycle : Option Nat := none
  end_exec_cycle : Option Nat := none
  write_cycle : Option Nat := none
  completed : Bool := false
deriving DecidableEq, Repr

/-- The `ReservationStation` class.  `instruction` is the index of the held
instruction in the program image. -/
structure ReservationStation where
  name : String
  op_type : String
  exec_cycles : Nat
  busy : Bool := false
  instruction : Option Nat := none
  vj : Option Int := none
  vk : Option Int := none
  qj : Option String := none
  qk : Option String := none
  a : Option Int := none
  cycles_left : Nat := 0
  executing : Bool := false
  wrote_result : Bool := false
  just_wrote : Bool := false
deriving DecidableEq, Repr

/-- `ReservationStation.clear`. -/
def ReservationStation.clear (rs : ReservationStation) : ReservationStation :=
  { name := rs.name, op_type := rs.op_type, exec_cycles := rs.exec_cycles }

/-- Errors surfaced through `messagebox.showerror` during a cycle. -/
inductive SimError where
  | cycleLimitExceeded
  | invalidBranchTarget
deriving DecidableEq, Repr

/-- The engine state: the mutable fields of `TomasuloSimulator` that the core
touches.  The station pool is the dict of lists flattened in the fixed dict
insertion order (LOAD, STORE, BEQ, CALL_RET, ADD_SUB, NOR, MUL). -/
structure SimState where
  cycle : Nat
  program : List Instruction
  current_pc : Int
  pending_control_flow : Bool
  registers : List Int
  register_status : List (Option String)
  memory : Int → Int
  instructions : List Nat
  completed_instructions : Nat
  branch_count : Nat
  mispredictions : Nat
  max_cycles : Nat
  res_stations : List ReservationStation
  error_msg : Option SimError

/-- The `op_to_rs` mapping dict; a missing key is a Python `KeyError`. -/
def op_to_rs (op : String) : Option String :=
  match op with
  | "LOAD" => some "LOAD"
  | "STORE" => some "STORE"
  | "BEQ" => some "BEQ"
  | "CALL" => some "CALL_RET"
  | "RET" => some "CALL_RET"
  | "ADD" => some "ADD_SUB"
  | "SUB" => some "ADD_SUB"
  | "NOR" => some "NOR"
  | "MUL" => some "MUL"
  | _ => none

/-- Errors raised before any cycle runs (spec taxonomy §7). -/
inductive LoadError where
  | unknownOpcode (op : String)
  | malformedInstruction
  | invalidHardwareConfig
deriving DecidableEq, Repr

/-- Split a character list at every separator character, keeping empty
fields (structural recursion, so that the kernel can evaluate it; core
`String.split` cannot be reduced by the kernel). -/
def splitChars (p : Char → Bool) : List Char → List Char → List (List Char)
  | [], acc => [acc.reverse]
  | c :: cs, acc =>
    if p c then acc.reverse :: splitChars p cs []
    else splitChars p cs (c :: acc)

/-- Uppercase one character, kernel-reducibly. -/
def upperChar (c : Char) : Char :=
  if 97 ≤ c.toNat ∧ c.toNat ≤ 122 then Char.ofNat (c.toNat - 32) else c

/-- Tokenisation of one program line: `re.split(r'[,\s()]+', line.strip().upper())`
followed by dropping empty pieces (runs of separators and the stripped ends
only produce empty fields, which are dropped, so splitting on single
separators is equivalent). -/
def tokenize (line : String) : List String :=
  (((splitChars (fun c => c = ',' || c.isWhitespace || c = '(' || c = ')')
      line.data []).filter (fun t => t ≠ [])).map
    (fun t => String.mk (t.map upperChar)))

/-- `Instruction.__init__`: fresh timestamps, not completed. -/
def Instruction.new (opcode : String) (operands : List Operand) (pc : Int) :
    Instruction :=
  { opcode := opcode, operands := operands, pc := pc }

/-- The body of `parse_instruction` after tokenisation.  Operand layouts are
positional: LOAD/STORE store `[reg, baseReg, offset]`, BEQ `[rA, rB, offset]`,
CALL `[label]`, RET `[]`, arithmetic `[rD, rS1, rS2]`. -/
def parse_tokens (parts : List String) (pc : Int) : Except LoadError Instruction :=
  match parts with
  | [] => .error .malformedInstruction
  | opcode :: rest =>
    if opcode = "LOAD" then
      match rest with
      | [dest, offTok, src] =>
        match pyInt? offTok with
        | some offset => .ok (Instruction.new opcode [.reg dest, .reg src, .imm offset] pc)
        | none => .error .malformedInstruction
      | _ => .error .malformedInstruction
    else if opcode = "STORE" then
      match rest with
      | [srcData, offTok, srcAddr] =>
        match pyInt? offTok with
        | some offset => .ok (Instruction.new opcode [.reg srcData, .reg srcAddr, .imm offset] pc)
        | none => .error .malformedInstruction
      | _ => .error .malformedInstruction
    else if opcode = "BEQ" then
      match rest with
      | [rA, rB, offTok] =>
        match pyInt? offTok with
        | some offset => .ok (Instruction.new opcode [.reg rA, .reg rB, .imm offset] pc)
        | none => .error .malformedInstruction
      | _ => .error .malformedInstruction
    else if opcode = "CALL" then
      match rest with
      | [labelTok] =>
        match pyInt? labelTok with
        | some label =>
          if -64 ≤ label ∧ label ≤ 63 then
            .ok (Instruction.new opcode [.imm label] pc)
          else
            .error .malformedInstruction
        | none => .error .malformedInstruction
      | _ => .error .malformedInstruction
    else if opcode = "RET" then
      .ok (Instruction.new opcode [] pc)
    else if opcode = "ADD" ∨ opcode = "SUB" ∨ opcode = "NOR" ∨ opcode = "MUL" then
      match rest with
      | dest :: src1 :: src2 :: _ =>
        .ok (Instruction.new opcode [.reg dest, .reg src1, .reg src2] pc)
      | _ => .error .malformedInstruction
    else
      .error (.unknownOpcode opcode)

/-- `parse_instruction(line, pc)`. -/
def parse_instruction (line : String) (pc : Int) : Except LoadError Instruction :=
  parse_tokens (tokenize line) pc

/-- `initialize_reservation_stations`: clear the pool, then rebuild it one
configuration entry at a time, validating each `(count, cycles)` pair, using
`cycles - 1` for LOAD and STORE and naming stations `<TYPE><index>` from 1.
An invalid pair stops the loop with `false` but KEEPS the station lists built
so far (the source shows the error and returns mid-loop, after having
already stored the earlier op types in the pool dict). -/
def initialize_reservation_stations : List (String × Int × Int) →
    List ReservationStation → List ReservationStation × Bool
  | [], acc => (acc, true)
  | (op_type, num_rs, exec_cycles) :: rest, acc =>
    if num_rs < 1 ∨ exec_cycles < 1 then (acc, false)
    else
      let actual_cycles :=
        if op_type = "LOAD" ∨ op_type = "STORE" then exec_cycles - 1 else exec_cycles
      initialize_reservation_stations rest
        (acc ++ (List.range num_rs.toNat).map (fun i =>
          { name := op_type ++ toString (i + 1), op_type := op_type,
            exec_cycles := actual_cycles.toNat : ReservationStation }))

/-- The default hardware configuration of the GUI entries. -/
def defaultConfig : List (String × Int × Int) :=
  [("LOAD", 2, 6), ("STORE", 2, 6), ("BEQ", 2, 1), ("CALL_RET", 1, 1),
   ("ADD_SUB", 4, 2), ("NOR", 2, 1), ("MUL", 2, 10)]

/-- The value stored by a memory initializer `addr:value` (`load_program`):
mask to 16 bits, and for an originally negative value convert back to a
signed 16-bit integer when the high bit is set (the source's comment:
"Convert to signed 16-bit integer"). -/
def memInitValue (v : Int) : Int :=
  if v < 0 then
    let m := v % 65536
    if 32768 ≤ m then m - 65536 else m
  else
    v % 65536

/-- Pointwise update of the sparse memory. -/
def memSet (mem : Int → Int) (addr v : Int) : Int → Int :=
  fun x => if x = addr then v else mem x

/-- Parse one memory text line.  Lines without `':'` are skipped (`none`);
a line with `':'` must split into exactly two integer fields. -/
def parseMemLine (line : String) : Except LoadError (Option (Int × Int)) :=
  if line.data.contains ':' then
    match splitChars (fun c => c = ':') line.data [] with
    | [aTok, vTok] =>
      match pyIntChars? aTok, pyIntChars? vTok with
      | some addr, some v => .ok (some (addr, v))
      | _, _ => .error .malformedInstruction
    | _ => .error .malformedInstruction
  else
    .ok none

/-- `load_program`'s memory loop: fold the initializer lines over an initial
memory, stopping at the first malformed line but KEEPING the cells stored so
far (the exception escapes mid-loop, after the earlier `self.memory[addr]`
assignments have run). -/
def loadMemory : List String → (Int → Int) → (Int → Int) × Option LoadError
  | [], mem => (mem, none)
  | line :: rest, mem =>
    match parseMemLine line with
    | .error e => (mem, some e)
    | .ok none => loadMemory rest mem
    | .ok (some (addr, v)) => loadMemory rest (memSet mem addr (memInitValue v))

/-- `load_program`'s program loop: parse the non-blank lines (skipping blanks
as `if line.strip():` does) with consecutive pcs from `pc`, appending each
parsed instruction; a parse failure stops the loop but KEEPS the prefix
appended so far (`self.program.append` has already run for every earlier
line when the failing line raises). -/
def parseProgram : List String → Int → List Instruction →
    List Instruction × Option LoadError
  | [], _, acc => (acc, none)
  | line :: rest, pc, acc =>
    if line.data.any (fun c => !c.isWhitespace) then
      match parse_instruction line pc with
      | .error e => (acc, some e)
      | .ok instr => parseProgram rest (pc + 1) (acc ++ [instr])
    else
      parseProgram rest pc acc

/-- `load_program`: rebuild the station pool from the configuration, reset
the engine, load memory, parse the program and fill the instruction queue.
A failure surfaces before any cycle executes, but the source mutates the
engine BEFORE the trailing `except` catches it, so a failed load leaves a
partially-loaded engine; the error carries that state.  A configuration
failure returns early with the previous engine state `prev` and the partial
pool; a memory or parse failure leaves the reset engine with the memory
cells and the program prefix (and its queue entries) loaded so far. -/
def load_program (prev : SimState) (config : List (String × Int × Int))
    (memLines progLines : List String) (start_pc : Int) :
    Except (LoadError × SimState) SimState :=
  match initialize_reservation_stations config [] with
  | (pool, false) =>
    .error (.invalidHardwareConfig, { prev with res_stations := pool })
  | (pool, true) =>
    let s0 : SimState :=
      { cycle := 1, program := [], current_pc := start_pc,
        pending_control_flow := false,
        registers := List.replicate 8 0,
        register_status := List.replicate 8 none,
        memory := fun _ => 0, instructions := [],
        completed_instructions := 0, branch_count := 0, mispredictions := 0,
        max_cycles := 1000, res_stations := pool, error_msg := none }
    match loadMemory memLines (fun _ => 0) with
    | (mem, some e) => .error (e, { s0 with memory := mem })
    | (mem, none) =>
      match parseProgram progLines start_pc [] with
      | (prog, some e) =>
        .error (e, { s0 with memory := mem, program := prog,
                             instructions := List.range prog.length })
      | (prog, none) =>
        .ok { s0 with memory := mem, program := prog,
                      instructions := List.range prog.length }

/-- Bitwise OR on naturals by structural recursion on a fuel argument, so
that the kernel can evaluate it (core `Nat.lor` is not kernel-reducible). -/
def natOrF : Nat → Nat → Nat → Nat
  | 0, _, _ => 0
  | fuel + 1, n, m =>
    if n = 0 ∧ m = 0 then 0
    else 2 * natOrF fuel (n / 2) (m / 2) + (if n % 2 = 1 ∨ m % 2 = 1 then 1 else 0)

/-- Bitwise AND-NOT (`n AND (NOT m)`) on naturals, fuelled as `natOrF`. -/
def natDiffF : Nat → Nat → Nat → Nat
  | 0, _, _ => 0
  | fuel + 1, n, m =>
    if n = 0 then 0
    else 2 * natDiffF fuel (n / 2) (m / 2) + (if n % 2 = 1 ∧ ¬ m % 2 = 1 then 1 else 0)

/-- Bitwise AND on naturals, fuelled as `natOrF`. -/
def natAndF : Nat → Nat → Nat → Nat
  | 0, _, _ => 0
  | fuel + 1, n, m =>
    if n = 0 ∨ m = 0 then 0
    else 2 * natAndF fuel (n / 2) (m / 2) + (if n % 2 = 1 ∧ m % 2 = 1 then 1 else 0)

/-- Python's bitwise OR on (possibly negative) ints, i.e. two's-complement OR:
for negative arguments `x = -(¬x) - 1` is used to reduce to natural bitwise
operations. -/
def pyOr (a b : Int) : Int :=
  if 0 ≤ a then
    if 0 ≤ b then (natOrF (a.toNat + b.toNat + 1) a.toNat b.toNat : Nat)
    else -(natDiffF ((-b - 1).toNat + a.toNat + 1) (-b - 1).toNat a.toNat : Nat) - 1
  else
    if 0 ≤ b then -(natDiffF ((-a - 1).toNat + b.toNat + 1) (-a - 1).toNat b.toNat : Nat) - 1
    else -(natAndF ((-a - 1).toNat + (-b - 1).toNat + 1) (-a - 1).toNat (-b - 1).toNat : Nat) - 1

/-- Python's bitwise NOT on an int: `~x = -x - 1`. -/
def pyNot (x : Int) : Int := -x - 1

/-- `List.set` guarded by the Python `IndexError` on an out-of-range index. -/
def listSet? {α : Type} (l : List α) (i : Nat) (x : α) : Option (List α) :=
  if i < l.length then some (l.set i x) else none

/-- The queue-rebuild loop on CALL/RET/taken-BEQ: scan the program image with
a `found_target` flag, collecting the index of the first instruction whose pc
equals the target and of every subsequent instruction. -/
def refetchAux (target : Int) : List (Nat × Instruction) → Bool → List Nat
  | [], _ => []
  | (i, ins) :: rest, found =>
    let found' := found || (ins.pc == target)
    if found' then i :: refetchAux target rest found'
    else refetchAux target rest found'

/-- `refetchQueue prog target`: the rebuilt instruction queue (as indices). -/
def refetchQueue (prog : List Instruction) (target : Int) : List Nat :=
  refetchAux target prog.enum false

/-- One station's view of the CDB broadcast: if `qj`/`qk` equals the
producing station's name, the value is captured and `just_wrote` is set
(the two ifs are sequential on the same object, as in the source loop). -/
def broadcastOne (producer : String) (result : Int) (o : ReservationStation) :
    ReservationStation :=
  let o1 :=
    if o.qj = some producer then
      { o with vj := some result, qj := none, just_wrote := true }
    else o
  if o1.qk = some producer then
    { o1 with vk := some result, qk := none, just_wrote := true }
  else o1

/-- The CDB broadcast loop over all stations. -/
def broadcast (stations : List ReservationStation) (producer : String) (result : Int) :
    List ReservationStation :=
  stations.map (broadcastOne producer result)

/-- Mark the instruction at index `i` complete (attribute write on a shared
object: never an index error in the source, so total here). -/
def markCompleted (prog : List Instruction) (i : Nat) : List Instruction :=
  match prog.get? i with
  | some ins => prog.set i { ins with completed := true }
  | none => prog

/-- Set `wrote_result` on station `i`. -/
def setWroteResult (stations : List ReservationStation) (i : Nat) :
    List ReservationStation :=
  match stations.get? i with
  | some rs => stations.set i { rs with wrote_result := true }
  | none => stations

/-- Outcome of write-back for one station: continue the sweep, or the
`return` that aborts `simulate_cycle` on a negative branch target. -/
inductive WBResult where
  | next (s : SimState)
  | halt (s : SimState)

/-- The completion bookkeeping shared by all write-back paths: mark the
instruction at `markIdx` complete, bump the completed counter, and set
`wrote_result` on station `i`. -/
def wbFinish (s : SimState) (i markIdx : Nat) : SimState :=
  { s with program := markCompleted s.program markIdx,
           completed_instructions := s.completed_instructions + 1,
           res_stations := setWroteResult s.res_stations i }

/-- Write-back, part 1 (the first `if` chain of the sweep body): compute the
result value and destination register of the completing station, with the
CALL/RET side effects (retarget `current_pc`, rebuild the queue, clear
`pending_control_flow`) and the first STORE memory write. -/
def wbCompute (s : SimState) (rs : ReservationStation) (ins : Instruction) :
    Option (Option Int × Option Nat × SimState) :=
  if ins.opcode = "LOAD" then do
    let vj ← rs.vj
    let a ← rs.a
    let op0 ← ins.operands.get? 0
    let d ← regIdx? op0
    pure (some (s.memory (vj + a)), some d, s)
  else if ins.opcode = "ADD" ∨ ins.opcode = "SUB" ∨ ins.opcode = "NOR" ∨
      ins.opcode = "MUL" then do
    let rB ← rs.vj
    let rC ← rs.vk
    let r :=
      if ins.opcode = "ADD" then (rB + rC) % 65536
      else if ins.opcode = "SUB" then (rB - rC) % 65536
      else if ins.opcode = "NOR" then pyNot (pyOr rB rC) % 65536
      else (rB * rC) % 65536
    let op0 ← ins.operands.get? 0
    let d ← regIdx? op0
    pure (some r, some d, s)
  else if ins.opcode = "CALL" then do
    let op0 ← ins.operands.get? 0
    let label ← asImm? op0
    pure (some (ins.pc + 1), some 1,
      { s with current_pc := label,
               instructions := refetchQueue s.program label,
               pending_control_flow := false })
  else if ins.opcode = "RET" then do
    let return_address ← rs.vj
    pure (none, none,
      { s with current_pc := return_address,
               instructions := refetchQueue s.program return_address,
               pending_control_flow := false })
  else if ins.opcode = "STORE" then do
    let vj ← rs.vj
    let a ← rs.a
    let vk ← rs.vk
    pure (none, none, { s with memory := memSet s.memory (vj + a) vk })
  else
    pure (none, none, s)

/-- Write-back, part 2: when there is a register result, write it to the
register file iff the destination's status still names this station, and
broadcast it on the CDB to all stations. -/
def wbBroadcast (s : SimState) (rs : ReservationStation) :
    Option Int → Option Nat → Option SimState
  | some r, some d => do
    let cur ← s.register_status.get? d
    let s2 ←
      if cur = some rs.name then do
        let regs ← listSet? s.registers d r
        let sts ← listSet? s.register_status d none
        pure { s with registers := regs, register_status := sts }
      else
        pure s
    pure { s2 with res_stations := broadcast s2.res_stations rs.name r }
  | _, _ => pure s

/-- Write-back, part 3: BEQ control flow (branch counter, target check and
halt, taken/not-taken retarget), the source's duplicated second STORE memory
write, and the completion bookkeeping.  In the source's taken-BEQ branch the
queue-rebuild loop reuses the name `instr`, so the completion mark
afterwards lands on the LAST program instruction instead of the branch; this
is reproduced via the mark index passed to `wbFinish`. -/
def wbControl (s : SimState) (rs : ReservationStation) (ins : Instruction)
    (i idx : Nat) : Option WBResult :=
  if ins.opcode = "BEQ" then do
    let rA ← rs.vj
    let rB ← rs.vk
    let s := { s with branch_count := s.branch_count + 1 }
    let op2 ← ins.operands.get? 2
    let off ← asImm? op2
    let target_pc := ins.pc + 1 + (off - 1)
    if target_pc < 0 then
      pure (WBResult.halt
        { s with instructions := [], pending_control_flow := false,
                 res_stations := s.res_stations.map ReservationStation.clear,
                 error_msg := some .invalidBranchTarget })
    else if rA = rB then
      let s := { s with mispredictions := s.mispredictions + 1,
                        current_pc := target_pc,
                        instructions := refetchQueue s.program target_pc,
                        pending_control_flow := false }
      let markIdx := if s.program = [] then idx else s.program.length - 1
      pure (WBResult.next (wbFinish s i markIdx))
    else
      let s := { s with current_pc := ins.pc + 1, pending_control_flow := false }
      pure (WBResult.next (wbFinish s i idx))
  else if ins.opcode = "STORE" then do
    let vj ← rs.vj
    let a ← rs.a
    let vk ← rs.vk
    pure (WBResult.next
      (wbFinish { s with memory := memSet s.memory (vj + a) vk } i idx))
  else
    pure (WBResult.next (wbFinish s i idx))

/-- Write-back of the single completed station at index `i`, in source
order: stamp `write_cycle`; compute result/destination with the CALL/RET
refetch and the first STORE write (`wbCompute`); broadcast on the CDB
(`wbBroadcast`); handle BEQ control flow, the second STORE write and mark
completion (`wbControl`). -/
def wbStation (s : SimState) (i : Nat) : Option WBResult := do
  let rs ← s.res_stations.get? i
  let idx ← rs.instruction
  let ins0 ← s.program.get? idx
  let ins := { ins0 with write_cycle := some s.cycle }
  let s := { s with program := s.program.set idx ins }
  let rds ← wbCompute s rs ins
  let s ← wbBroadcast rds.2.2 rs rds.1 rds.2.1
  wbControl s rs ins i idx

/-- The write-back sweep over the pre-collected list of completed stations,
aborting the cycle if one of them halts the simulation. -/
def wbSweep : List Nat → SimState → Option WBResult
  | [], s => some (.next s)
  | i :: rest, s => do
    match ← wbStation s i with
    | .halt s' => pure (WBResult.halt s')
    | .next s' => wbSweep rest s'

/-- Collect the stations that finished executing but have not written:
`busy and executing and cycles_left <= 0 and not wrote_result` (with
`cycles_left : Nat`, `≤ 0` is `= 0`). -/
def completedIdxs (stations : List ReservationStation) : List Nat :=
  (stations.enum.filter (fun p =>
    p.2.busy && p.2.executing && p.2.cycles_left == 0 && !p.2.wrote_result)).map Prod.fst

/-- Sweep 1: clear every station that wrote its result in a previous cycle. -/
def releasePhase (s : SimState) : SimState :=
  { s with res_stations := s.res_stations.map (fun rs =>
      if rs.wrote_result then rs.clear else rs) }

/-- One station's visit in the execute sweep: begin execution when busy, not
executing, both operand tags clear and not `just_wrote`; otherwise decrement
`cycles_left` when executing, stamping `end_exec_cycle` at zero; always clear
`just_wrote`. -/
def execStepRS (cycle : Nat) (prog : List Instruction) (rs : ReservationStation) :
    Option (ReservationStation × List Instruction) :=
  if rs.busy ∧ ¬ rs.executing ∧ rs.qj = none ∧ rs.qk = none ∧ ¬ rs.just_wrote then
    match rs.instruction with
    | none => none
    | some idx =>
      match prog.get? idx with
      | none => none
      | some ins =>
        some ({ rs with executing := true, cycles_left := rs.exec_cycles,
                        just_wrote := false },
              prog.set idx { ins with start_exec_cycle := some cycle })
  else if rs.executing ∧ 0 < rs.cycles_left then
    let c := rs.cycles_left - 1
    if c = 0 then
      match rs.instruction with
      | none => none
      | some idx =>
        match prog.get? idx with
        | none => none
        | some ins =>
          some ({ rs with cycles_left := c, just_wrote := false },
                prog.set idx { ins with end_exec_cycle := some cycle })
    else
      some ({ rs with cycles_left := c, just_wrote := false }, prog)
  else
    some ({ rs with just_wrote := false }, prog)

/-- Sweep 3: the execute sweep over all stations, threading the program image
(for the timestamp stamps). -/
def execSweep (cycle : Nat) : List ReservationStation → List Instruction →
    Option (List ReservationStation × List Instruction)
  | [], prog => some ([], prog)
  | rs :: rest, prog => do
    let (rs', prog') ← execStepRS cycle prog rs
    let (rest', prog'') ← execSweep cycle rest prog'
    pure (rs' :: rest', prog'')

/-- `if self.register_status[r]: Q := status[r] else: V := registers[r]` —
read one source register through the renaming table. -/
def readSrc (s : SimState) (r : Nat) : Option (String ⊕ Int) := do
  let st ← s.register_status.get? r
  match st with
  | some q => pure (Sum.inl q)
  | none => do
    let v ← s.registers.get? r
    pure (Sum.inr v)

/-- Install a read source register into the `qj`/`vj` slot pair. -/
def setJ (rs : ReservationStation) : String ⊕ Int → ReservationStation
  | .inl q => { rs with qj := some q }
  | .inr v => { rs with vj := some v }

/-- Install a read source register into the `qk`/`vk` slot pair. -/
def setK (rs : ReservationStation) : String ⊕ Int → ReservationStation
  | .inl q => { rs with qk := some q }
  | .inr v => { rs with vk := some v }

/-- Issue setup for LOAD: base register into `qj`/`vj`, offset into `a`,
destination renamed to this station. -/
def issueLOAD (s : SimState) (fi : Nat) (free_rs : ReservationStation)
    (ins : Instruction) : Option SimState := do
  let op0 ← ins.operands.get? 0
  let op1 ← ins.operands.get? 1
  let op2 ← ins.operands.get? 2
  let rB_idx ← regIdx? op1
  let off ← asImm? op2
  let src ← readSrc s rB_idx
  let free_rs := setJ { free_rs with a := some off } src
  let dest_idx ← regIdx? op0
  let sts ← listSet? s.register_status dest_idx (some free_rs.name)
  pure { s with register_status := sts,
                res_stations := s.res_stations.set fi free_rs }

/-- Issue setup for STORE: base register into `qj`/`vj`, data register into
`qk`/`vk`, offset into `a`; does not block issue. -/
def issueSTORE (s : SimState) (fi : Nat) (free_rs : ReservationStation)
    (ins : Instruction) : Option SimState := do
  let op0 ← ins.operands.get? 0
  let op1 ← ins.operands.get? 1
  let op2 ← ins.operands.get? 2
  let rA_idx ← regIdx? op0
  let rB_idx ← regIdx? op1
  let off ← asImm? op2
  let srcB ← readSrc s rB_idx
  let free_rs := setJ { free_rs with a := some off } srcB
  let srcA ← readSrc s rA_idx
  let free_rs := setK free_rs srcA
  pure { s with res_stations := s.res_stations.set fi free_rs }

/-- Issue setup for BEQ: both compared registers, and block further issue. -/
def issueBEQ (s : SimState) (fi : Nat) (free_rs : ReservationStation)
    (ins : Instruction) : Option SimState := do
  let op0 ← ins.operands.get? 0
  let op1 ← ins.operands.get? 1
  let rA_idx ← regIdx? op0
  let rB_idx ← regIdx? op1
  let srcA ← readSrc s rA_idx
  let free_rs := setJ free_rs srcA
  let srcB ← readSrc s rB_idx
  let free_rs := setK free_rs srcB
  pure { s with pending_control_flow := true,
                res_stations := s.res_stations.set fi free_rs }

/-- Issue setup for CALL: label into `a`, R1 renamed to this station, block
further issue. -/
def issueCALL (s : SimState) (fi : Nat) (free_rs : ReservationStation)
    (ins : Instruction) : Option SimState := do
  let op0 ← ins.operands.get? 0
  let label ← asImm? op0
  let free_rs := { free_rs with a := some label }
  let sts ← listSet? s.register_status 1 (some free_rs.name)
  pure { s with register_status := sts, pending_control_flow := true,
                res_stations := s.res_stations.set fi free_rs }

/-- Issue setup for RET: R1 into `qj`/`vj`, block further issue. -/
def issueRET (s : SimState) (fi : Nat) (free_rs : ReservationStation) :
    Option SimState := do
  let src1 ← readSrc s 1
  let free_rs := setJ free_rs src1
  pure { s with pending_control_flow := true,
                res_stations := s.res_stations.set fi free_rs }

/-- Issue setup for ADD/SUB/NOR/MUL: both sources, destination renamed. -/
def issueALU (s : SimState) (fi : Nat) (free_rs : ReservationStation)
    (ins : Instruction) : Option SimState := do
  let op0 ← ins.operands.get? 0
  let op1 ← ins.operands.get? 1
  let op2 ← ins.operands.get? 2
  let rB_idx ← regIdx? op1
  let rC_idx ← regIdx? op2
  let dest_idx ← regIdx? op0
  let srcB ← readSrc s rB_idx
  let free_rs := setJ free_rs srcB
  let srcC ← readSrc s rC_idx
  let free_rs := setK free_rs srcC
  let sts ← listSet? s.register_status dest_idx (some free_rs.name)
  pure { s with register_status := sts,
                res_stations := s.res_stations.set fi free_rs }

/-- The per-opcode operand setup dispatch of the issue sweep. -/
def issueSetup (s : SimState) (fi : Nat) (free_rs : ReservationStation)
    (ins : Instruction) : Option SimState :=
  if ins.opcode = "LOAD" then issueLOAD s fi free_rs ins
  else if ins.opcode = "STORE" then issueSTORE s fi free_rs ins
  else if ins.opcode = "BEQ" then issueBEQ s fi free_rs ins
  else if ins.opcode = "CALL" then issueCALL s fi free_rs ins
  else if ins.opcode = "RET" then issueRET s fi free_rs
  else if ins.opcode = "ADD" ∨ ins.opcode = "SUB" ∨ ins.opcode = "NOR" ∨
      ins.opcode = "MUL" then issueALU s fi free_rs ins
  else pure { s with res_stations := s.res_stations.set fi free_rs }

/-- Sweep 4, station binding: pop the head; bind the instruction to the
found free station; mark busy; stamp `issue_cycle`; then run the per-opcode
operand setup (a `None` station means a structural stall: the head stays). -/
def issueTryBind (s : SimState) (idx : Nat) (restQ : List Nat)
    (ins0 : Instruction) : Option (Nat × ReservationStation) → Option SimState
  | none => some s
  | some (fi, free0) =>
    issueSetup
      { s with instructions := restQ,
               program := s.program.set idx { ins0 with issue_cycle := some s.cycle } }
      fi { free0 with busy := true, instruction := some idx }
      { ins0 with issue_cycle := some s.cycle }

/-- Sweep 4 main body: examine the head instruction, find the first free
station of its mapped type and bind it (`issueTryBind`; `none` stalls). -/
def issuePhase (s : SimState) : Option SimState :=
  match s.instructions with
  | [] => some s
  | idx :: restQ =>
    if s.pending_control_flow then some s
    else do
      let ins0 ← s.program.get? idx
      let rs_type ← op_to_rs ins0.opcode
      issueTryBind s idx restQ ins0
        ((s.res_stations.enum.filter
          (fun p => p.2.op_type == rs_type && !p.2.busy)).head?)

/-- `simulate_cycle`: the cycle-cap check, then the four sweeps in order
release → write-back → execute → issue.  The cap drains the queue and all
stations and skips every sweep; a write-back halt (negative branch target)
skips the execute and issue sweeps. -/
def simulate_cycle (s : SimState) : Option SimState :=
  if s.max_cycles < s.cycle then
    some { s with instructions := [], pending_control_flow := false,
                  res_stations := s.res_stations.map ReservationStation.clear,
                  error_msg := some .cycleLimitExceeded }
  else
    match wbSweep (completedIdxs (releasePhase s).res_stations) (releasePhase s) with
    | none => none
    | some (.halt sh) => some sh
    | some (.next s1) =>
      match execSweep s1.cycle s1.res_stations s1.program with
      | none => none
      | some (sts, prog) =>
        issuePhase { s1 with res_stations := sts, program := prog }

/-- Loop condition of `step`/`run_to_end`: queue empty and no station busy. -/
def finishedb (s : SimState) : Bool :=
  s.instructions.isEmpty && s.res_stations.all (fun rs => !rs.busy)

/-- One `step`: simulate a cycle, then advance the cycle counter. -/
def stepCycle (s : SimState) : Option SimState :=
  (simulate_cycle s).map (fun s' => { s' with cycle := s'.cycle + 1 })

/-- `n` invocations of `step` (unconditionally, as repeated button presses). -/
def runN (s : SimState) : Nat → Option SimState
  | 0 => some s
  | n + 1 => do runN (← stepCycle s) n

/-- `run_to_end` with fuel: step while unfinished, and count the number of
executed cycles (the number of `simulate_cycle` invocations). -/
def run_to_end : Nat → SimState → Option (SimState × Nat)
  | 0, s => if finishedb s then some (s, 0) else none
  | fuel + 1, s =>
    if finishedb s then some (s, 0)
    else do
      let s' ← stepCycle s
      let (t, n) ← run_to_end fuel s'
      pure (t, n + 1)

/-- The terminal statistics of `show_results`. -/
structure Stats where
  total_cycles : Nat
  completed : Nat
  ipc : ℚ
  branches : Nat
  mispred : Nat
  mispred_pct : ℚ
deriving DecidableEq, Repr

/-- `show_results`: `total_cycles = self.cycle`, IPC and misprediction
percentage by rational division with zero fallbacks. -/
def show_results (s : SimState) : Stats :=
  { total_cycles := s.cycle,
    completed := s.completed_instructions,
    ipc := if 0 < s.cycle then (s.completed_instructions : ℚ) / (s.cycle : ℚ) else 0,
    branches := s.branch_count,
    mispred := s.mispredictions,
    mispred_pct :=
      if 0 < s.branch_count then
        (s.mispredictions : ℚ) / (s.branch_count : ℚ) * 100
      else 0 }

/-- A throwaway state used only to totalise `Except` projections below. -/
def dummyState : SimState where
  cycle := 0
  program := []
  current_pc := 0
  pending_control_flow := false
  registers := []
  register_status := []
  memory := fun _ => 0
  instructions := []
  completed_instructions := 0
  branch_count := 0
  mispredictions := 0
  max_cycles := 0
  res_stations := []
  error_msg := none

/-- Project a successful load, defaulting to `dummyState` on failure. -/
def okS (e : Except (LoadError × SimState) SimState) : SimState :=
  match e with
  | .ok s => s
  | .error _ => dummyState

/-- Program exhibiting a write to R0 (`NOR R0,R0,R0` computes 65535). -/
def progR0 : List String := ["NOR R0, R0, R0"]

/-- The engine state after loading `progR0` with the default configuration. -/
def stateR0 : SimState := okS (load_program dummyState defaultConfig [] progR0 0)

/-- C1.  The claim says R0 always holds 0, its status entry stays `none`,
and instructions destined for R0 change neither at Issue nor at Write-Back.
The code has no R0 guard: issuing `NOR R0,R0,R0` installs this station as
R0's producer (`register_status[0] = "NOR1"` after cycle 1), and write-back
stores 65535 into R0, contradicting the source's own comment
"R0 to R7, R0 is always 0".  This theorem evaluates the engine at that
failing input. -/
theorem claim_C1_bug :
    (load_program dummyState defaultConfig [] progR0 0).isOk = true ∧
    (runN stateR0 1).map (fun s => s.register_status.get? 0) =
      some (some (some "NOR1")) ∧
    (run_to_end 30 stateR0).map (fun p => p.1.registers.get? 0) =
      some (some 65535) ∧
    (65535 : Int) ≠ 0 := by
  decide

/-- The engine state after loading the single memory initializer `5:-1`. -/
def stateMemNeg : SimState := okS (load_program dummyState defaultConfig ["5:-1"] [] 0)

/-- C3, counterexample.  The claim says a negative memory initializer value
is stored as the unsigned 16-bit reduction (`-1` would store 65535, inside
0..2¹⁶−1).  Loading `5:-1` actually stores `-1` (the source converts back to
a signed 16-bit integer), which is neither 65535 nor in 0..2¹⁶−1. -/
theorem claim_C3_counterexample :
    (load_program dummyState defaultConfig ["5:-1"] [] 0).isOk = true ∧
    stateMemNeg.memory 5 = -1 ∧
    stateMemNeg.memory 5 ≠ 65535 ∧
    ¬ (0 ≤ stateMemNeg.memory 5) := by
  decide

/-- C3, amended.  A memory initializer value is stored as its 16-bit
reduction interpreted as a *signed* two's-complement number when negative:
the stored value is congruent to `v` mod 2¹⁶ (their difference is divisible
by 2¹⁶) and lies in `[-2¹⁵, 2¹⁶)`, with a negative `v` landing in
`[-2¹⁵, 2¹⁵)` (not in `0..2¹⁶−1` as claimed). -/
theorem claim_C3_amended (v : Int) :
    (65536 : Int) ∣ (v - memInitValue v) ∧
    -32768 ≤ memInitValue v ∧ memInitValue v < 65536 ∧
    (v < 0 → memInitValue v < 32768) := by
  simp only [memInitValue]
  split_ifs <;> refine ⟨?_, ?_, ?_, ?_⟩ <;> omega

/-- Witness for `claim_C3_amended` at `v = -1`. -/
theorem claim_C3_amended_witness :
    (65536 : Int) ∣ (-1 - memInitValue (-1)) ∧
    memInitValue (-1) < 32768 := by
  have h := claim_C3_amended (-1)
  exact ⟨h.1, h.2.2.2 (by decide)⟩

/-- A program whose BEQ resolves taken and is not the last instruction. -/
def progBeq : List String := ["BEQ R0, R0, 1", "ADD R1, R0, R0"]

/-- The engine state after loading `progBeq` with the default configuration. -/
def stateBeq : SimState := okS (load_program dummyState defaultConfig [] progBeq 0)

/-- C4.  The claim (and spec §4.4 step 4) says the instruction marked
complete in write-back is the one held by the written-back station.  In the
taken-BEQ branch the queue-rebuild loop `for instr in self.program:` shadows
the variable `instr`, so `instr.completed = True` afterwards marks the LAST
program instruction.  After 4 cycles of `progBeq` the BEQ (pc 0) has written
back (`write_cycle = 4`) but is NOT marked complete, while the trailing ADD
(pc 1, which has not even written back) IS marked complete; the completed
counter incremented once, as claimed. -/
theorem claim_C4_bug :
    (load_program dummyState defaultConfig [] progBeq 0).isOk = true ∧
    (runN stateBeq 4).map (fun s =>
        (s.program.map (fun i => (i.completed, i.write_cycle)),
         s.completed_instructions,
         s.res_stations.filterMap (fun rs =>
           if rs.wrote_result then some (rs.name, rs.instruction) else none))) =
      some ([(false, some 4), (true, none)], 1, [("BEQ1", some 0)]) := by
  decide

/-- C7.  If at the start of a cycle the cycle counter exceeds
`max_cycles = 1000`, `simulate_cycle` surfaces CycleLimitExceeded and
drains: the instruction queue is emptied, every reservation station is
cleared, `pending_control_flow` is reset, and nothing else changes (no
release/write/execute/issue sweep ran). -/
theorem claim_C7_cycle_cap (s : SimState) (h1 : s.max_cycles = 1000)
    (h2 : 1000 < s.cycle) :
    simulate_cycle s =
      some { s with instructions := [], pending_control_flow := false,
                    res_stations := s.res_stations.map ReservationStation.clear,
                    error_msg := some SimError.cycleLimitExceeded } := by
  unfold simulate_cycle
  rw [if_pos (by omega)]

/-- A state sitting at cycle 1001 with the default configuration. -/
def stateCap : SimState := { stateR0 with cycle := 1001 }

/-- Witness for `claim_C7_cycle_cap` at the concrete state `stateCap`. -/
theorem claim_C7_cycle_cap_witness :
    simulate_cycle stateCap =
      some { stateCap with instructions := [], pending_control_flow := false,
                           res_stations := stateCap.res_stations.map ReservationStation.clear,
                           error_msg := some SimError.cycleLimitExceeded } :=
  claim_C7_cycle_cap stateCap (by decide) (by decide)

/-- Projection of a load failure's error tag. -/
def loadErr? : Except (LoadError × SimState) SimState → Option LoadError
  | .error (e, _) => some e
  | .ok _ => none

/-- Projection of the engine state a load leaves behind (the carried state
of a failure, or the loaded state of a success). -/
def errState : Except (LoadError × SimState) SimState → SimState
  | .error (_, s) => s
  | .ok s => s

/-- A program whose second line fails to parse (unknown opcode `FOO`). -/
def progPartial : List String := ["ADD R1, R2, R3", "FOO R1"]

/-- The engine state a failed load of `progPartial` leaves behind. -/
def statePartial : SimState :=
  errState (load_program dummyState defaultConfig ["5:7"] progPartial 0)

/-- C8, counterexample.  The claim says a load failure leaves the engine in
its pre-load state.  Loading `progPartial` (valid `ADD`, then unknown opcode
`FOO`) with one memory initializer fails with UnknownOpcode, yet the engine
it leaves is NOT the pre-load state (here `dummyState`, with empty program,
empty queue and zero memory): the `ADD` has been appended to the program and
the queue, memory cell 5 holds 7, and the partial program is runnable — 
stepping the left-behind engine to completion executes and completes the
`ADD`. -/
theorem claim_C8_counterexample :
    (load_program dummyState defaultConfig ["5:7"] progPartial 0).isOk = false ∧
    loadErr? (load_program dummyState defaultConfig ["5:7"] progPartial 0) =
      some (.unknownOpcode "FOO") ∧
    statePartial.program.map (fun i => i.opcode) = ["ADD"] ∧
    statePartial.instructions = [0] ∧
    statePartial.memory 5 = 7 ∧
    statePartial.cycle = 1 ∧
    dummyState.program = [] ∧ dummyState.memory 5 = 0 ∧
    (run_to_end 30 statePartial).map (fun p => p.1.completed_instructions) =
      some 1 := by
  decide

/-- C8, amended.  The parser fails with MalformedInstruction for every CALL
whose integer label lies outside [-64, 63] and succeeds with operand list
`[label]` inside that range; any line whose opcode token is none of the nine
opcodes fails with UnknownOpcode; and a parse failure makes `load_program`
surface the error before any cycle executes — but NOT in the pre-load state:
the engine has already been reset (cycle 1, zero counters, fresh registers
and stations), the memory initializers stored, and the instructions before
the failing line appended to the program and the queue, leaving a runnable
partially-loaded engine. -/
theorem claim_C8_amended (pc : Int) :
    (∀ t label, pyInt? t = some label →
       ((label < -64 ∨ 63 < label) →
          parse_tokens ["CALL", t] pc = .error .malformedInstruction) ∧
       (-64 ≤ label ∧ label ≤ 63 →
          parse_tokens ["CALL", t] pc = .ok (Instruction.new "CALL" [.imm label] pc))) ∧
    (∀ op rest, ¬ (op = "LOAD" ∨ op = "STORE" ∨ op = "BEQ" ∨ op = "CALL" ∨
        op = "RET" ∨ op = "ADD" ∨ op = "SUB" ∨ op = "NOR" ∨ op = "MUL") →
       parse_tokens (op :: rest) pc = .error (.unknownOpcode op)) ∧
    (∀ prev config memLines progLines startPc pool mem prog e,
       initialize_reservation_stations config [] = (pool, true) →
       loadMemory memLines (fun _ => 0) = (mem, none) →
       parseProgram progLines startPc [] = (prog, some e) →
       load_program prev config memLines progLines startPc =
         .error (e, { cycle := 1, program := prog, current_pc := startPc,
                      pending_control_flow := false,
                      registers := List.replicate 8 0,
                      register_status := List.replicate 8 none,
                      memory := mem, instructions := List.range prog.length,
                      completed_instructions := 0, branch_count := 0,
                      mispredictions := 0, max_cycles := 1000,
                      res_stations := pool, error_msg := none })) := by
  refine ⟨?_, ?_, ?_⟩
  · intro t label h
    constructor
    · intro hrange
      simp only [parse_tokens, h]
      norm_num
      intro _ _ _ hl hu
      omega
    · intro hin
      simp only [parse_tokens, h]
      norm_num
      rw [if_neg (by decide), if_neg (by decide), if_neg (by decide),
        if_pos hin]
  · intro op rest hop
    push_neg at hop
    obtain ⟨h1, h2, h3, h4, h5, h6, h7, h8, h9⟩ := hop
    simp [parse_tokens, h1, h2, h3, h4, h5, h6, h7, h8, h9]
  · intro prev config memLines progLines startPc pool mem prog e hin hm hp
    simp only [load_program, hin, hm, hp]

/-- The station pool, loaded memory and parsed program prefix of the
`progPartial` load, for the witness below. -/
def c8pool : List ReservationStation :=
  (initialize_reservation_stations defaultConfig []).1

/-- The memory of the `progPartial` load (cell 5 holds 7). -/
def c8mem : Int → Int := (loadMemory ["5:7"] (fun _ => 0)).1

/-- The parsed prefix of `progPartial` (just the `ADD`). -/
def c8prog : List Instruction := (parseProgram progPartial 0 []).1

/-- Witness for `claim_C8_amended`: CALL 100 is rejected, CALL 5 parses to
operands `[5]`, opcode FOO is unknown, and loading `progPartial` fails with
UnknownOpcode while leaving the reset engine holding the loaded memory and
the parsed `ADD` prefix in program and queue. -/
theorem claim_C8_amended_witness :
    parse_tokens ["CALL", "100"] 0 = .error .malformedInstruction ∧
    parse_tokens ["CALL", "5"] 0 = .ok (Instruction.new "CALL" [.imm 5] 0) ∧
    parse_tokens ["FOO", "R1"] 0 = .error (.unknownOpcode "FOO") ∧
    load_program dummyState defaultConfig ["5:7"] progPartial 0 =
      .error (.unknownOpcode "FOO",
        { cycle := 1, program := c8prog, current_pc := 0,
          pending_control_flow := false,
          registers := List.replicate 8 0,
          register_status := List.replicate 8 none,
          memory := c8mem, instructions := List.range c8prog.length,
          completed_instructions := 0, branch_count := 0,
          mispredictions := 0, max_cycles := 1000,
          res_stations := c8pool, error_msg := none }) := by
  have h := claim_C8_amended 0
  exact ⟨(h.1 "100" 100 (by decide)).1 (by decide),
    (h.1 "5" 5 (by decide)).2 (by decide),
    h.2.1 "FOO" ["R1"] (by decide),
    h.2.2 dummyState defaultConfig ["5:7"] progPartial 0 c8pool c8mem c8prog
      (.unknownOpcode "FOO") (by rfl) (by rfl) (by rfl)⟩

/-- Proof harness for C2: the successive visits a single station receives
from the execute sweep (`execStepRS`) in `k` consecutive cycles starting at
cycle `c` — each per-cycle `simulate_cycle` visits every station once with
the current cycle number. -/
def execIter (prog : List Instruction) (rs : ReservationStation) :
    Nat → Nat → Option (ReservationStation × List Instruction)
  | _, 0 => some (rs, prog)
  | c, k + 1 =>
    match execStepRS c prog rs with
    | none => none
    | some (rs', p') => execIter p' rs' (c + 1) k

/-- While a station is executing with `cycles_left = m ≥ 1`, the next `m`
execute-sweep visits decrement the counter to zero and stamp
`end_exec_cycle` with the cycle of the last visit, `c + m - 1`. -/
theorem execIter_countdown (m : Nat) : ∀ (prog : List Instruction)
    (rs : ReservationStation) (c idx : Nat) (ins : Instruction),
    1 ≤ m →
    rs.executing = true → rs.cycles_left = m → rs.instruction = some idx →
    prog.get? idx = some ins →
    execIter prog rs c m =
      some ({ rs with cycles_left := 0, just_wrote := false },
        prog.set idx { ins with end_exec_cycle := some (c + m - 1) }) := by
  induction m with
  | zero => intro _ _ _ _ _ h; omega
  | succ m ih =>
    intro prog rs c idx ins _ hex hcl hidx hins
    by_cases hm : m = 0
    · subst hm
      simp only [execIter, execStepRS, hex, hcl, hidx, hins]
      simp
    · have hstep : execStepRS c prog rs =
          some ({ rs with cycles_left := m, just_wrote := false }, prog) := by
        simp only [execStepRS, hex, hcl]
        simp [hm]
      simp only [execIter, hstep]
      have harith : c + (m + 1) - 1 = (c + 1) + m - 1 := by omega
      rw [harith,
        ih prog { rs with cycles_left := m, just_wrote := false } (c + 1) idx ins
          (by omega) (by simp [hex]) (by simp) (by simp [hidx]) hins]

/-- C2, amended.  A station that begins execution at cycle `c` with
effective latency `L ≥ 1` stamps `start_exec_cycle = c` in that sweep and
`end_exec_cycle = c + L` exactly `L` sweeps later, so
`end_exec_cycle - start_exec_cycle` equals the effective latency of the
station (the inclusive span `end - start + 1` is `L + 1`, not `L` as
claimed), provided the instruction's stamps are not overwritten by a
re-issue in between (the stamps shown are those this station wrote). -/
theorem claim_C2_amended (prog : List Instruction) (rs : ReservationStation)
    (c idx : Nat) (ins : Instruction)
    (hbusy : rs.busy = true) (hexec : rs.executing = false)
    (hqj : rs.qj = none) (hqk : rs.qk = none) (hjw : rs.just_wrote = false)
    (hidx : rs.instruction = some idx) (hins : prog.get? idx = some ins)
    (hlat : 1 ≤ rs.exec_cycles) :
    ∃ rs' prog' ins',
      execIter prog rs c (rs.exec_cycles + 1) = some (rs', prog') ∧
      prog'.get? idx = some ins' ∧
      ins'.start_exec_cycle = some c ∧
      ins'.end_exec_cycle = some (c + rs.exec_cycles) ∧
      (c + rs.exec_cycles) - c = rs.exec_cycles := by
  have hstep : execStepRS c prog rs =
      some (({ rs with executing := true, cycles_left := rs.exec_cycles,
                       just_wrote := false } : ReservationStation),
            prog.set idx { ins with start_exec_cycle := some c }) := by
    simp only [execStepRS, hbusy, hexec, hqj, hqk, hjw, hidx, hins]
    simp
  have hget1 : (prog.set idx { ins with start_exec_cycle := some c }).get? idx =
      some { ins with start_exec_cycle := some c } := by
    rw [List.get?_set_eq, hins]; rfl
  have hrun := execIter_countdown rs.exec_cycles
    (prog.set idx { ins with start_exec_cycle := some c })
    { rs with executing := true, cycles_left := rs.exec_cycles, just_wrote := false }
    (c + 1) idx { ins with start_exec_cycle := some c }
    hlat (by simp) (by simp) (by simp [hidx]) hget1
  rw [show (c + 1) + rs.exec_cycles - 1 = c + rs.exec_cycles from by omega] at hrun
  refine ⟨{ rs with executing := true, cycles_left := 0, just_wrote := false },
    (prog.set idx { ins with start_exec_cycle := some c }).set idx
      { ins with start_exec_cycle := some c,
                   end_exec_cycle := some (c + rs.exec_cycles) },
    { ins with start_exec_cycle := some c,
                 end_exec_cycle := some (c + rs.exec_cycles) },
    ?_, ?_, rfl, rfl, by omega⟩
  · simp only [execIter, hstep]
    exact hrun
  · rw [List.get?_set_eq, hget1]
    rfl

/-- A single-ADD program: the ADD_SUB stations have effective latency 2. -/
def progAddOne : List String := ["ADD R1, R0, R0"]

/-- The engine state after loading `progAddOne`. -/
def stateAddOne : SimState := okS (load_program dummyState defaultConfig [] progAddOne 0)

/-- C2, counterexample.  The claim says `end_exec_cycle - start_exec_cycle
+ 1` equals the station's effective latency.  Running `ADD R1,R0,R0` under
the default configuration gives `start_exec_cycle = 2`, `end_exec_cycle = 4`
on an ADD_SUB station of effective latency 2, and `4 - 2 + 1 = 3 ≠ 2`. -/
theorem claim_C2_counterexample :
    (load_program dummyState defaultConfig [] progAddOne 0).isOk = true ∧
    (run_to_end 30 stateAddOne).map (fun p =>
        p.1.program.map (fun i => (i.start_exec_cycle, i.end_exec_cycle))) =
      some [(some 2, some 4)] ∧
    (stateAddOne.res_stations.filter (fun rs => rs.op_type == "ADD_SUB")).all
      (fun rs => rs.exec_cycles == 2) = true ∧
    ¬ (4 - 2 + 1 = 2) := by
  decide

/-- A concrete busy ADD_SUB station about to start executing. -/
def rsAdd : ReservationStation :=
  { name := "ADD_SUB1", op_type := "ADD_SUB", exec_cycles := 2, busy := true,
    instruction := some 0, vj := some 0, vk := some 0 }

/-- The one-instruction program image held by `rsAdd`. -/
def progAddImage : List Instruction :=
  [Instruction.new "ADD" [.reg "R1", .reg "R0", .reg "R0"] 0]

/-- Witness for `claim_C2_amended` at the concrete station `rsAdd`,
starting at cycle 2. -/
theorem claim_C2_amended_witness :
    ∃ rs' prog' ins',
      execIter progAddImage rsAdd 2 (rsAdd.exec_cycles + 1) = some (rs', prog') ∧
      prog'.get? 0 = some ins' ∧
      ins'.start_exec_cycle = some 2 ∧
      ins'.end_exec_cycle = some (2 + rsAdd.exec_cycles) ∧
      (2 + rsAdd.exec_cycles) - 2 = rsAdd.exec_cycles :=
  claim_C2_amended progAddImage rsAdd 2 0
    (Instruction.new "ADD" [.reg "R1", .reg "R0", .reg "R0"] 0)
    rfl rfl rfl rfl rfl rfl rfl (by decide)


/-- `wbCompute` leaves the cycle counter, cap, program, register file,
status table, station pool, counters and error channel untouched. -/
theorem wbCompute_frame (s : SimState) (rs : ReservationStation) (ins : Instruction)
    (res : Option Int) (d : Option Nat) (s' : SimState)
    (h : wbCompute s rs ins = some (res, d, s')) :
    s'.cycle = s.cycle ∧ s'.max_cycles = s.max_cycles ∧ s'.program = s.program ∧
    s'.registers = s.registers ∧ s'.register_status = s.register_status ∧
    s'.res_stations = s.res_stations ∧
    s'.completed_instructions = s.completed_instructions ∧
    s'.branch_count = s.branch_count ∧ s'.mispredictions = s.mispredictions ∧
    s'.error_msg = s.error_msg := by
  unfold wbCompute at h
  repeat' split at h
  all_goals
    simp only [bind, Option.bind_eq_some, pure, Option.some.injEq, Prod.mk.injEq] at h
  all_goals
    (try obtain ⟨a1, ha1, h⟩ := h) <;>
    (try obtain ⟨a2, ha2, h⟩ := h) <;>
    (try obtain ⟨a3, ha3, h⟩ := h) <;>
    (try obtain ⟨a4, ha4, h⟩ := h) <;>
    (try obtain ⟨h1, h2, h3⟩ := h) <;>
    subst_vars <;>
    simp_all

/-- `wbBroadcast` leaves the cycle counter, cap, program, memory, queue,
control-flow flag, pc, counters and error channel untouched. -/
theorem wbBroadcast_frame (s : SimState) (rs : ReservationStation)
    (res : Option Int) (d : Option Nat) (s' : SimState)
    (h : wbBroadcast s rs res d = some s') :
    s'.cycle = s.cycle ∧ s'.max_cycles = s.max_cycles ∧ s'.program = s.program ∧
    s'.memory = s.memory ∧ s'.instructions = s.instructions ∧
    s'.pending_control_flow = s.pending_control_flow ∧
    s'.current_pc = s.current_pc ∧
    s'.completed_instructions = s.completed_instructions ∧
    s'.branch_count = s.branch_count ∧ s'.mispredictions = s.mispredictions ∧
    s'.error_msg = s.error_msg := by
  cases res with
  | none =>
    cases d <;>
      (simp only [wbBroadcast, pure, Option.some.injEq] at h; subst h;
       exact ⟨rfl, rfl, rfl, rfl, rfl, rfl, rfl, rfl, rfl, rfl, rfl⟩)
  | some r =>
    cases d with
    | none =>
      simp only [wbBroadcast, pure, Option.some.injEq] at h
      subst h
      exact ⟨rfl, rfl, rfl, rfl, rfl, rfl, rfl, rfl, rfl, rfl, rfl⟩
    | some dd =>
      simp only [wbBroadcast, bind, Option.bind_eq_some, pure,
        Option.some.injEq] at h
      obtain ⟨cur, hcur, h⟩ := h
      by_cases hc : cur = some rs.name
      · rw [if_pos hc] at h
        simp only [bind, Option.bind_eq_some, pure, Option.some.injEq,
          Option.some_bind] at h
        obtain ⟨regs, hregs, sts, hsts, rfl⟩ := h
        exact ⟨rfl, rfl, rfl, rfl, rfl, rfl, rfl, rfl, rfl, rfl, rfl⟩
      · rw [if_neg hc] at h
        simp only [bind, Option.some_bind, Option.some.injEq] at h
        subst h
        exact ⟨rfl, rfl, rfl, rfl, rfl, rfl, rfl, rfl, rfl, rfl, rfl⟩

/-- `wbControl` leaves the cycle counter, cap, register file and status
table untouched, on both the continue and the halt outcome. -/
theorem wbControl_frame (s : SimState) (rs : ReservationStation) (ins : Instruction)
    (i idx : Nat) (r : WBResult) (h : wbControl s rs ins i idx = some r) :
    (∀ s', r = .next s' → s'.cycle = s.cycle ∧ s'.max_cycles = s.max_cycles ∧
      s'.registers = s.registers ∧ s'.register_status = s.register_status) ∧
    (∀ s', r = .halt s' → s'.cycle = s.cycle ∧ s'.max_cycles = s.max_cycles ∧
      s'.registers = s.registers ∧ s'.register_status = s.register_status) := by
  unfold wbControl at h
  split at h
  · simp only [bind, Option.bind_eq_some, pure, Option.some.injEq] at h
    obtain ⟨rA, hrA, rB, hrB, op2, hop2, off, hoff, h⟩ := h
    split at h
    · simp only [pure, Option.some.injEq] at h
      subst h
      refine ⟨fun s' hs' => (nomatch hs'), fun s' hs' => ?_⟩
      injection hs' with hh
      subst hh
      exact ⟨rfl, rfl, rfl, rfl⟩
    · split at h <;>
        (simp only [pure, Option.some.injEq] at h;
         subst h;
         refine ⟨fun s' hs' => ?_, fun s' hs' => (nomatch hs')⟩;
         injection hs' with hh;
         subst hh;
         exact ⟨rfl, rfl, rfl, rfl⟩)
  · split at h
    · simp only [bind, Option.bind_eq_some, pure, Option.some.injEq] at h
      obtain ⟨vj, hvj, a, ha, vk, hvk, h⟩ := h
      subst h
      refine ⟨fun s' hs' => ?_, fun s' hs' => (nomatch hs')⟩
      injection hs' with hh
      subst hh
      exact ⟨rfl, rfl, rfl, rfl⟩
    · simp only [pure, Option.some.injEq] at h
      subst h
      refine ⟨fun s' hs' => ?_, fun s' hs' => (nomatch hs')⟩
      injection hs' with hh
      subst hh
      exact ⟨rfl, rfl, rfl, rfl⟩

/-- `wbStation` leaves the cycle counter and the cap untouched. -/
theorem wbStation_cycleMax (s : SimState) (i : Nat) (r : WBResult)
    (h : wbStation s i = some r) :
    ∀ s', (r = .next s' ∨ r = .halt s') →
      s'.cycle = s.cycle ∧ s'.max_cycles = s.max_cycles := by
  unfold wbStation at h
  simp only [bind, Option.bind_eq_some] at h
  obtain ⟨rs, hrs, idx, hidx, ins0, hins0, rds, hrds, s2, hs2, hctl⟩ := h
  obtain ⟨hc1, hc2, -⟩ := wbCompute_frame _ _ _ _ _ _ hrds
  obtain ⟨hb1, hb2, -⟩ := wbBroadcast_frame _ _ _ _ _ hs2
  have hctlf := wbControl_frame _ _ _ _ _ _ hctl
  intro s' hs'
  cases hs' with
  | inl hn =>
    obtain ⟨hx1, hx2, -⟩ := hctlf.1 s' hn
    exact ⟨by rw [hx1, hb1, hc1], by rw [hx2, hb2, hc2]⟩
  | inr hh =>
    obtain ⟨hx1, hx2, -⟩ := hctlf.2 s' hh
    exact ⟨by rw [hx1, hb1, hc1], by rw [hx2, hb2, hc2]⟩

/-- `wbSweep` leaves the cycle counter and the cap untouched. -/
theorem wbSweep_cycleMax (idxs : List Nat) : ∀ (s : SimState) (r : WBResult),
    wbSweep idxs s = some r →
    ∀ s', (r = .next s' ∨ r = .halt s') →
      s'.cycle = s.cycle ∧ s'.max_cycles = s.max_cycles := by
  induction idxs with
  | nil =>
    intro s r h s' hs'
    simp only [wbSweep, Option.some.injEq] at h
    subst h
    cases hs' with
    | inl hn => injection hn with hh; subst hh; exact ⟨rfl, rfl⟩
    | inr hh => nomatch hh
  | cons i rest ih =>
    intro s r h s' hs'
    simp only [wbSweep, bind, Option.bind_eq_some] at h
    obtain ⟨r1, hr1, h⟩ := h
    cases r1 with
    | halt sh =>
      simp only [pure, Option.some.injEq] at h
      subst h
      cases hs' with
      | inl hn => nomatch hn
      | inr hh =>
        injection hh with hhh
        subst hhh
        exact wbStation_cycleMax s i _ hr1 _ (Or.inr rfl)
    | next sn =>
      have h1 := wbStation_cycleMax s i _ hr1 sn (Or.inl rfl)
      have h2 := ih sn r h s' hs'
      exact ⟨h2.1.trans h1.1, h2.2.trans h1.2⟩

/-- The issue setup functions leave the cycle counter and cap untouched. -/
theorem issueLOAD_cm (s : SimState) (fi : Nat) (free_rs : ReservationStation)
    (ins : Instruction) (s' : SimState) (h : issueLOAD s fi free_rs ins = some s') :
    s'.cycle = s.cycle ∧ s'.max_cycles = s.max_cycles := by
  simp only [issueLOAD, bind, Option.bind_eq_some, pure, Option.some.injEq] at h
  repeat' obtain ⟨_, _, h⟩ := h
  exact ⟨rfl, rfl⟩

/-- As `issueLOAD_cm`, for STORE. -/
theorem issueSTORE_cm (s : SimState) (fi : Nat) (free_rs : ReservationStation)
    (ins : Instruction) (s' : SimState) (h : issueSTORE s fi free_rs ins = some s') :
    s'.cycle = s.cycle ∧ s'.max_cycles = s.max_cycles := by
  simp only [issueSTORE, bind, Option.bind_eq_some, pure, Option.some.injEq] at h
  repeat' obtain ⟨_, _, h⟩ := h
  exact ⟨rfl, rfl⟩

/-- As `issueLOAD_cm`, for BEQ. -/
theorem issueBEQ_cm (s : SimState) (fi : Nat) (free_rs : ReservationStation)
    (ins : Instruction) (s' : SimState) (h : issueBEQ s fi free_rs ins = some s') :
    s'.cycle = s.cycle ∧ s'.max_cycles = s.max_cycles := by
  simp only [issueBEQ, bind, Option.bind_eq_some, pure, Option.some.injEq] at h
  repeat' obtain ⟨_, _, h⟩ := h
  exact ⟨rfl, rfl⟩

/-- As `issueLOAD_cm`, for CALL. -/
theorem issueCALL_cm (s : SimState) (fi : Nat) (free_rs : ReservationStation)
    (ins : Instruction) (s' : SimState) (h : issueCALL s fi free_rs ins = some s') :
    s'.cycle = s.cycle ∧ s'.max_cycles = s.max_cycles := by
  simp only [issueCALL, bind, Option.bind_eq_some, pure, Option.some.injEq] at h
  repeat' obtain ⟨_, _, h⟩ := h
  exact ⟨rfl, rfl⟩

/-- As `issueLOAD_cm`, for RET. -/
theorem issueRET_cm (s : SimState) (fi : Nat) (free_rs : ReservationStation)
    (s' : SimState) (h : issueRET s fi free_rs = some s') :
    s'.cycle = s.cycle ∧ s'.max_cycles = s.max_cycles := by
  simp only [issueRET, bind, Option.bind_eq_some, pure, Option.some.injEq] at h
  repeat' obtain ⟨_, _, h⟩ := h
  exact ⟨rfl, rfl⟩

/-- As `issueLOAD_cm`, for the arithmetic opcodes. -/
theorem issueALU_cm (s : SimState) (fi : Nat) (free_rs : ReservationStation)
    (ins : Instruction) (s' : SimState) (h : issueALU s fi free_rs ins = some s') :
    s'.cycle = s.cycle ∧ s'.max_cycles = s.max_cycles := by
  simp only [issueALU, bind, Option.bind_eq_some, pure, Option.some.injEq] at h
  repeat' obtain ⟨_, _, h⟩ := h
  exact ⟨rfl, rfl⟩

/-- `issueSetup` leaves the cycle counter and cap untouched. -/
theorem issueSetup_cycleMax (s : SimState) (fi : Nat) (free_rs : ReservationStation)
    (ins : Instruction) (s' : SimState) (h : issueSetup s fi free_rs ins = some s') :
    s'.cycle = s.cycle ∧ s'.max_cycles = s.max_cycles := by
  unfold issueSetup at h
  split at h
  · exact issueLOAD_cm _ _ _ _ _ h
  · split at h
    · exact issueSTORE_cm _ _ _ _ _ h
    · split at h
      · exact issueBEQ_cm _ _ _ _ _ h
      · split at h
        · exact issueCALL_cm _ _ _ _ _ h
        · split at h
          · exact issueRET_cm _ _ _ _ h
          · split at h
            · exact issueALU_cm _ _ _ _ _ h
            · simp only [pure, Option.some.injEq] at h
              subst h
              exact ⟨rfl, rfl⟩

/-- `issueTryBind` leaves the cycle counter and cap untouched. -/
theorem issueTryBind_cycleMax (s : SimState) (idx : Nat) (restQ : List Nat)
    (ins0 : Instruction) (o : Option (Nat × ReservationStation)) (s' : SimState)
    (h : issueTryBind s idx restQ ins0 o = some s') :
    s'.cycle = s.cycle ∧ s'.max_cycles = s.max_cycles := by
  cases o with
  | none =>
    simp only [issueTryBind, Option.some.injEq] at h
    subst h
    exact ⟨rfl, rfl⟩
  | some p =>
    obtain ⟨fi, free0⟩ := p
    simp only [issueTryBind] at h
    have h2 := issueSetup_cycleMax _ _ _ _ _ h
    exact h2

/-- The issue sweep leaves the cycle counter and cap untouched. -/
theorem issuePhase_cycleMax (s s' : SimState) (h : issuePhase s = some s') :
    s'.cycle = s.cycle ∧ s'.max_cycles = s.max_cycles := by
  unfold issuePhase at h
  rcases hq : s.instructions with _ | ⟨idx, restQ⟩
  · simp only [hq, Option.some.injEq] at h
    subst h
    exact ⟨rfl, rfl⟩
  · simp only [hq] at h
    by_cases hp : s.pending_control_flow = true
    · rw [if_pos hp] at h
      simp only [Option.some.injEq] at h
      subst h
      exact ⟨rfl, rfl⟩
    · rw [if_neg hp] at h
      simp only [bind, Option.bind_eq_some] at h
      obtain ⟨ins0, hins0, rsty, hrsty, h⟩ := h
      exact issueTryBind_cycleMax _ _ _ _ _ _ h

/-- `simulate_cycle` leaves the cycle counter and the cap untouched (the
counter is advanced by `step`, after the sweeps). -/
theorem simulate_cycle_cycleMax (s s' : SimState) (h : simulate_cycle s = some s') :
    s'.cycle = s.cycle ∧ s'.max_cycles = s.max_cycles := by
  unfold simulate_cycle at h
  split at h
  · simp only [Option.some.injEq] at h; subst h; exact ⟨rfl, rfl⟩
  · cases hw : wbSweep (completedIdxs (releasePhase s).res_stations) (releasePhase s) with
    | none => rw [hw] at h; exact (nomatch h)
    | some r =>
      rw [hw] at h
      cases r with
      | halt sh =>
        simp only [Option.some.injEq] at h
        subst h
        exact wbSweep_cycleMax _ _ _ hw _ (Or.inr rfl)
      | next s1 =>
        have h2 : (match execSweep s1.cycle s1.res_stations s1.program with
          | none => none
          | some (sts, prog) =>
            issuePhase { s1 with res_stations := sts, program := prog }) =
            some s' := h
        cases he : execSweep s1.cycle s1.res_stations s1.program with
        | none => rw [he] at h2; exact (nomatch h2)
        | some p =>
          obtain ⟨sts, prog⟩ := p
          rw [he] at h2
          have h1 := issuePhase_cycleMax _ _ h2
          have h3 := wbSweep_cycleMax _ _ _ hw s1 (Or.inl rfl)
          exact ⟨h1.1.trans h3.1, h1.2.trans h3.2⟩

/-- One `step` advances the cycle counter by exactly one. -/
theorem stepCycle_cycle (s s' : SimState) (h : stepCycle s = some s') :
    s'.cycle = s.cycle + 1 ∧ s'.max_cycles = s.max_cycles := by
  unfold stepCycle at h
  cases hs : simulate_cycle s with
  | none => rw [hs] at h; exact (nomatch h)
  | some s2 =>
    rw [hs] at h
    simp only [Option.map_some', Option.some.injEq] at h
    subst h
    have h2 := simulate_cycle_cycleMax _ _ hs
    exact ⟨by simp [h2.1], h2.2⟩

/-- After `run_to_end` executes `n` cycles, the cycle counter has advanced
by `n` from its starting value. -/
theorem run_to_end_cycle (fuel : Nat) : ∀ (s t : SimState) (n : Nat),
    run_to_end fuel s = some (t, n) → t.cycle = s.cycle + n := by
  induction fuel with
  | zero =>
    intro s t n h
    unfold run_to_end at h
    split at h
    · simp only [Option.some.injEq, Prod.mk.injEq] at h
      obtain ⟨rfl, rfl⟩ := h
      rfl
    · exact (nomatch h)
  | succ fuel ih =>
    intro s t n h
    unfold run_to_end at h
    split at h
    · simp only [Option.some.injEq, Prod.mk.injEq] at h
      obtain ⟨rfl, rfl⟩ := h
      rfl
    · simp only [bind, Option.bind_eq_some, pure, Option.some.injEq,
        Prod.mk.injEq] at h
      obtain ⟨s1, hs1, tn, hrun, ht, hn⟩ := h
      obtain ⟨t1, n1⟩ := tn
      subst ht hn
      have h1 := stepCycle_cycle _ _ hs1
      have h2 := ih s1 t1 n1 hrun
      simp only at h2 ⊢
      omega

/-- C9, amended.  The terminal statistics report `total_cycles` as the final
value of the cycle counter, which exceeds the number of executed cycles by
the starting value (1 on a fresh load): after `n` executed cycles the
reported total is `initial + n`, not `n`.  IPC is completed divided by that
reported total, and the misprediction figure is the percentage
`100 * mispredictions / branches`, 0 when no branch was encountered. -/
theorem claim_C9_amended (fuel : Nat) (s t : SimState) (n : Nat)
    (h : run_to_end fuel s = some (t, n)) :
    (show_results t).total_cycles = s.cycle + n ∧
    (show_results t).completed = t.completed_instructions ∧
    (0 < s.cycle →
      (show_results t).ipc =
        (t.completed_instructions : ℚ) / ((s.cycle + n : Nat) : ℚ)) ∧
    (0 < t.branch_count →
      (show_results t).mispred_pct =
        (t.mispredictions : ℚ) / (t.branch_count : ℚ) * 100) ∧
    (t.branch_count = 0 → (show_results t).mispred_pct = 0) := by
  have hc := run_to_end_cycle fuel s t n h
  refine ⟨?_, rfl, ?_, ?_, ?_⟩
  · simp [show_results, hc]
  · intro hpos
    simp only [show_results]
    rw [if_pos (by omega), hc]
  · intro hb
    simp only [show_results]
    rw [if_pos hb]
  · intro hb
    simp only [show_results]
    rw [if_neg (by omega)]

/-- C9, counterexample.  Running the one-ADD program to completion executes
6 cycles, but the reported `total_cycles` is 7 (the counter starts at 1 and
is incremented after each executed cycle), so the reported total is not the
number of cycles executed. -/
theorem claim_C9_counterexample :
    (run_to_end 30 stateAddOne).map
        (fun p => ((show_results p.1).total_cycles, p.2)) = some (7, 6) ∧
    (7 : Nat) ≠ 6 := by
  decide

/-- The final state of the one-ADD run, for the C9 witness. -/
def stateAddDone : SimState := ((run_to_end 30 stateAddOne).getD (dummyState, 0)).1

/-- Witness for `claim_C9_amended` on the concrete one-ADD run. -/
theorem claim_C9_amended_witness :
    (show_results stateAddDone).total_cycles = stateAddOne.cycle + 6 ∧
    (show_results stateAddDone).ipc =
      (stateAddDone.completed_instructions : ℚ) /
        ((stateAddOne.cycle + 6 : Nat) : ℚ) := by
  have h := claim_C9_amended 30 stateAddOne stateAddDone 6 (by rfl)
  exact ⟨h.1, h.2.2.1 (by decide)⟩

/-- Once the refetch flag is set, the loop collects every remaining index. -/
theorem refetchAux_found (t : Int) : ∀ l : List (Nat × Instruction),
    refetchAux t l true = l.map Prod.fst := by
  intro l
  induction l with
  | nil => rfl
  | cons p rest ih =>
    obtain ⟨i, ins⟩ := p
    simp [refetchAux, ih]

/-- The queue-rebuild loop equals: drop the program prefix whose pcs differ
from the target, keep the indices of the rest (the queue is rebuilt from the
first instruction whose pc equals the target). -/
theorem refetchQueue_eq_dropWhile (prog : List Instruction) (t : Int) :
    refetchQueue prog t =
      (prog.enum.dropWhile (fun p => p.2.pc != t)).map Prod.fst := by
  unfold refetchQueue
  generalize prog.enum = l
  induction l with
  | nil => rfl
  | cons p rest ih =>
    obtain ⟨i, ins⟩ := p
    have hb : (ins.pc == t) = decide (ins.pc = t) := rfl
    by_cases hpc : ins.pc = t
    · simp [refetchAux, List.dropWhile, hb, hpc, refetchAux_found, bne]
    · simp [refetchAux, List.dropWhile, hb, hpc, ih, bne]

/-- C5.  When a BEQ reaches write-back (with operand values `a`, `b`, branch
offset `off` and a non-negative target): the branch counter is incremented;
the target is `pc + 1 + (off - 1)`; if `a = b` the misprediction counter is
incremented, `current_pc` becomes the target and the queue is rebuilt from
the first program instruction whose pc equals the target (phrased as
dropWhile over the program image); otherwise `current_pc` becomes `pc + 1`
and the queue is unchanged. -/
theorem claim_C5_beq_writeback (s : SimState) (i idx : Nat) (rs : ReservationStation)
    (ins0 : Instruction) (a b off : Int)
    (hrs : s.res_stations.get? i = some rs)
    (hinstr : rs.instruction = some idx)
    (hins : s.program.get? idx = some ins0)
    (hop : ins0.opcode = "BEQ")
    (hvj : rs.vj = some a) (hvk : rs.vk = some b)
    (hoff : ins0.operands.get? 2 = some (.imm off))
    (htgt : ¬ (ins0.pc + 1 + (off - 1) < 0)) :
    ∃ s', wbStation s i = some (.next s') ∧
      s'.branch_count = s.branch_count + 1 ∧
      (a = b →
        s'.mispredictions = s.mispredictions + 1 ∧
        s'.current_pc = ins0.pc + 1 + (off - 1) ∧
        s'.instructions =
          ((s.program.set idx { ins0 with write_cycle := some s.cycle }).enum.dropWhile
            (fun p => p.2.pc != ins0.pc + 1 + (off - 1))).map Prod.fst) ∧
      (¬ a = b →
        s'.mispredictions = s.mispredictions ∧
        s'.current_pc = ins0.pc + 1 ∧
        s'.instructions = s.instructions) := by
  set ins1 : Instruction := { ins0 with write_cycle := some s.cycle } with hins1
  set s1 : SimState := { s with program := s.program.set idx ins1 } with hs1
  have hopc1 : ins1.opcode = "BEQ" := by rw [hins1]; exact hop
  have hcomp : wbCompute s1 rs ins1 = some (none, none, s1) := by
    unfold wbCompute
    simp [hop]
  have hws : wbStation s i = wbControl s1 rs ins1 i idx := by
    unfold wbStation
    simp only [bind, hrs, Option.some_bind, hinstr, hins, hcomp]
    rfl
  have hoff1 : ins1.operands.get? 2 = some (.imm off) := hoff
  rw [hws]
  unfold wbControl
  rw [if_pos hopc1]
  simp only [bind, hvj, hvk, Option.some_bind, hoff1, asImm?]
  rw [if_neg htgt]
  by_cases hab : a = b
  · rw [if_pos hab]
    refine ⟨_, rfl, rfl, fun _ => ⟨rfl, rfl, ?_⟩, fun hcon => absurd hab hcon⟩
    exact refetchQueue_eq_dropWhile _ _
  · rw [if_neg hab]
    exact ⟨_, rfl, rfl, fun hcon => absurd hcon hab, fun _ => ⟨rfl, rfl, rfl⟩⟩

/-- The `progBeq` state at the start of cycle 4 (the BEQ writes back now). -/
def c5s : SimState := (runN stateBeq 3).getD dummyState

/-- The BEQ1 station of `c5s`. -/
def c5rs : ReservationStation :=
  (c5s.res_stations.get? 4).getD { name := "", op_type := "", exec_cycles := 0 }

/-- The BEQ instruction of `c5s`. -/
def c5ins : Instruction := (c5s.program.get? 0).getD (Instruction.new "" [] 0)

/-- Witness for `claim_C5_beq_writeback` on the concrete taken-BEQ state of
`progBeq` at cycle 4 (station BEQ1, index 4). -/
theorem claim_C5_beq_writeback_witness :
    ∃ s', wbStation c5s 4 = some (.next s') ∧
      s'.branch_count = c5s.branch_count + 1 ∧
      ((0 : Int) = 0 →
        s'.mispredictions = c5s.mispredictions + 1 ∧
        s'.current_pc = c5ins.pc + 1 + (1 - 1) ∧
        s'.instructions =
          ((c5s.program.set 0 { c5ins with write_cycle := some c5s.cycle }).enum.dropWhile
            (fun p => p.2.pc != c5ins.pc + 1 + (1 - 1))).map Prod.fst) ∧
      (¬ (0 : Int) = 0 →
        s'.mispredictions = c5s.mispredictions ∧
        s'.current_pc = c5ins.pc + 1 ∧
        s'.instructions = c5s.instructions) :=
  claim_C5_beq_writeback c5s 4 0 c5rs c5ins 0 0 1 (by rfl) (by rfl) (by rfl)
    (by decide) (by rfl) (by rfl) (by decide) (by decide)
/-- How the write-back sweep may change one (non-completing, non-halting)
station: the executing flag is untouched; an operand tag is either untouched
or satisfied with `just_wrote` set; `just_wrote` is never cleared. -/
def cdbStep (rs rs' : ReservationStation) : Prop :=
  rs'.executing = rs.executing ∧
  (rs'.qj = rs.qj ∨ (rs'.qj = none ∧ rs'.just_wrote = true)) ∧
  (rs'.qk = rs.qk ∨ (rs'.qk = none ∧ rs'.just_wrote = true)) ∧
  (rs.just_wrote = true → rs'.just_wrote = true)

theorem cdbStep_refl (rs : ReservationStation) : cdbStep rs rs :=
  ⟨rfl, Or.inl rfl, Or.inl rfl, fun h => h⟩

theorem cdbStep_trans {a b c : ReservationStation} (h1 : cdbStep a b)
    (h2 : cdbStep b c) : cdbStep a c := by
  obtain ⟨e1, j1, k1, w1⟩ := h1
  obtain ⟨e2, j2, k2, w2⟩ := h2
  refine ⟨e2.trans e1, ?_, ?_, fun h => w2 (w1 h)⟩
  · rcases j2 with h2' | h2'
    · rcases j1 with h1' | h1'
      · exact Or.inl (h2'.trans h1')
      · exact Or.inr ⟨h2'.trans h1'.1, w2 h1'.2⟩
    · exact Or.inr h2'
  · rcases k2 with h2' | h2'
    · rcases k1 with h1' | h1'
      · exact Or.inl (h2'.trans h1')
      · exact Or.inr ⟨h2'.trans h1'.1, w2 h1'.2⟩
    · exact Or.inr h2'

/-- `broadcastOne` moves each station by `cdbStep`. -/
theorem broadcastOne_cdbStep (producer : String) (r : Int)
    (o : ReservationStation) : cdbStep o (broadcastOne producer r o) := by
  by_cases hj : o.qj = some producer <;> by_cases hk : o.qk = some producer <;>
    simp [broadcastOne, cdbStep, hj, hk]

/-- The CDB broadcast moves each station by `cdbStep`. -/
theorem broadcast_cdbStep (producer : String) (r : Int)
    (sts : List ReservationStation) (j : Nat) (o : ReservationStation)
    (ho : sts.get? j = some o) :
    ∃ o', (broadcast sts producer r).get? j = some o' ∧ cdbStep o o' := by
  unfold broadcast
  rw [List.get?_map, ho]
  exact ⟨_, rfl, broadcastOne_cdbStep producer r o⟩

/-- Setting `wrote_result` moves each station by `cdbStep`. -/
theorem setWroteResult_cdbStep (sts : List ReservationStation) (i j : Nat)
    (o : ReservationStation) (ho : sts.get? j = some o) :
    ∃ o', (setWroteResult sts i).get? j = some o' ∧ cdbStep o o' := by
  unfold setWroteResult
  cases hi : sts.get? i with
  | none => exact ⟨o, ho, cdbStep_refl o⟩
  | some rsi =>
    by_cases hij : i = j
    · subst hij
      rw [ho] at hi
      injection hi with hi
      subst hi
      refine ⟨{ o with wrote_result := true }, ?_,
        ⟨rfl, Or.inl rfl, Or.inl rfl, fun h => h⟩⟩
      rw [List.get?_set_eq, ho]
      rfl
    · refine ⟨o, ?_, cdbStep_refl o⟩
      rw [List.get?_set_ne _ _ hij]
      exact ho

/-- `wbBroadcast` moves each station by `cdbStep`. -/
theorem wbBroadcast_stations (s : SimState) (rs : ReservationStation)
    (res : Option Int) (d : Option Nat) (s' : SimState)
    (h : wbBroadcast s rs res d = some s') (j : Nat) (o : ReservationStation)
    (ho : s.res_stations.get? j = some o) :
    ∃ o', s'.res_stations.get? j = some o' ∧ cdbStep o o' := by
  cases res with
  | none =>
    cases d <;>
      (simp only [wbBroadcast, pure, Option.some.injEq] at h; subst h;
       exact ⟨o, ho, cdbStep_refl o⟩)
  | some r =>
    cases d with
    | none =>
      simp only [wbBroadcast, pure, Option.some.injEq] at h
      subst h
      exact ⟨o, ho, cdbStep_refl o⟩
    | some dd =>
      simp only [wbBroadcast, bind, Option.bind_eq_some, pure,
        Option.some.injEq] at h
      obtain ⟨cur, hcur, h⟩ := h
      by_cases hc : cur = some rs.name
      · rw [if_pos hc] at h
        simp only [bind, Option.bind_eq_some, pure, Option.some.injEq,
          Option.some_bind] at h
        obtain ⟨regs, hregs, sts2, hsts2, rfl⟩ := h
        exact broadcast_cdbStep _ _ _ _ _ ho
      · rw [if_neg hc] at h
        simp only [bind, Option.some_bind, Option.some.injEq] at h
        subst h
        exact broadcast_cdbStep _ _ _ _ _ ho

/-- `wbControl` (continue outcome) moves each station by `cdbStep`. -/
theorem wbControl_stations (s : SimState) (rs : ReservationStation)
    (ins : Instruction) (i idx : Nat) (s' : SimState)
    (h : wbControl s rs ins i idx = some (.next s')) (j : Nat)
    (o : ReservationStation) (ho : s.res_stations.get? j = some o) :
    ∃ o', s'.res_stations.get? j = some o' ∧ cdbStep o o' := by
  unfold wbControl at h
  split at h
  · simp only [bind, Option.bind_eq_some, pure, Option.some.injEq] at h
    obtain ⟨rA, hrA, rB, hrB, op2, hop2, off, hoff, h⟩ := h
    split at h
    · exact absurd h (by simp)
    · split at h <;>
        (simp only [Option.some.injEq] at h;
         injection h with h;
         subst h;
         exact setWroteResult_cdbStep _ _ _ _ ho)
  · split at h
    · simp only [bind, Option.bind_eq_some, pure, Option.some.injEq] at h
      obtain ⟨vj, hvj, a, ha, vk, hvk, h⟩ := h
      injection h with h
      subst h
      exact setWroteResult_cdbStep _ _ _ _ ho
    · simp only [pure, Option.some.injEq] at h
      injection h with h
      subst h
      exact setWroteResult_cdbStep _ _ _ _ ho

/-- One station's write-back moves every station by `cdbStep`. -/
theorem wbStation_stations (s : SimState) (i : Nat) (s' : SimState)
    (h : wbStation s i = some (.next s')) (j : Nat) (o : ReservationStation)
    (ho : s.res_stations.get? j = some o) :
    ∃ o', s'.res_stations.get? j = some o' ∧ cdbStep o o' := by
  unfold wbStation at h
  simp only [bind, Option.bind_eq_some] at h
  obtain ⟨rs, hrs, idx, hidx, ins0, hins0, rds, hrds, s2, hs2, hctl⟩ := h
  obtain ⟨-, -, -, -, -, hsts, -, -, -, -⟩ := wbCompute_frame _ _ _ _ _ _ hrds
  have ho1 : rds.2.2.res_stations.get? j = some o := by rw [hsts]; exact ho
  obtain ⟨o2, ho2, hc2⟩ := wbBroadcast_stations _ _ _ _ _ hs2 j o ho1
  obtain ⟨o3, ho3, hc3⟩ := wbControl_stations _ _ _ _ _ _ hctl j o2 ho2
  exact ⟨o3, ho3, cdbStep_trans hc2 hc3⟩

/-- The whole write-back sweep (continue outcome) moves every station by
`cdbStep`. -/
theorem wbSweep_stations (idxs : List Nat) : ∀ (s s' : SimState),
    wbSweep idxs s = some (.next s') →
    ∀ j o, s.res_stations.get? j = some o →
      ∃ o', s'.res_stations.get? j = some o' ∧ cdbStep o o' := by
  induction idxs with
  | nil =>
    intro s s' h j o ho
    simp only [wbSweep, Option.some.injEq] at h
    injection h with h
    subst h
    exact ⟨o, ho, cdbStep_refl o⟩
  | cons i rest ih =>
    intro s s' h j o ho
    simp only [wbSweep, bind, Option.bind_eq_some] at h
    obtain ⟨r1, hr1, h⟩ := h
    cases r1 with
    | halt sh =>
      simp only [pure, Option.some.injEq] at h
      exact absurd h (by simp)
    | next sn =>
      obtain ⟨o1, ho1, hc1⟩ := wbStation_stations s i sn hr1 j o ho
      obtain ⟨o2, ho2, hc2⟩ := ih sn s' h j o1 ho1
      exact ⟨o2, ho2, cdbStep_trans hc1 hc2⟩

/-- A station flagged `just_wrote` that is not executing does not begin
execution in this cycle's execute sweep. -/
theorem execSweep_no_start (c : Nat) : ∀ (sts : List ReservationStation)
    (prog : List Instruction) (sts' : List ReservationStation)
    (prog' : List Instruction),
    execSweep c sts prog = some (sts', prog') →
    ∀ j rs, sts.get? j = some rs → rs.just_wrote = true → rs.executing = false →
      ∃ rs', sts'.get? j = some rs' ∧ rs'.executing = false := by
  intro sts
  induction sts with
  | nil => intro prog sts' prog' h j rs hj; exact absurd hj (by simp)
  | cons rs0 rest ih =>
    intro prog sts' prog' h j rs hj hjw hex
    simp only [execSweep, bind, Option.bind_eq_some] at h
    obtain ⟨⟨rs1, p1⟩, hstep, ⟨rest', p2⟩, hrest, heq⟩ := h
    simp only [pure, Option.some.injEq, Prod.mk.injEq] at heq
    obtain ⟨hsts', hprog'⟩ := heq
    subst hsts' hprog'
    cases j with
    | zero =>
      simp only [List.get?] at hj
      injection hj with hj
      subst hj
      have hrs1 : rs1 = { rs0 with just_wrote := false } := by
        unfold execStepRS at hstep
        rw [if_neg (by simp [hjw]), if_neg (by simp [hex])] at hstep
        simp only [Option.some.injEq, Prod.mk.injEq] at hstep
        exact hstep.1.symm
      subst hrs1
      exact ⟨_, rfl, hex⟩
    | succ j' =>
      simp only [List.get?] at hj
      obtain ⟨rs', hget, hex'⟩ := ih p1 rest' p2 hrest j' rs hj hjw hex
      exact ⟨rs', hget, hex'⟩

/-- C6.  A result broadcast on the CDB in a cycle cannot be consumed by an
execution start in the same cycle: a non-executing station whose `qj` or
`qk` was satisfied during this cycle's write-back sweep has `just_wrote`
set, and the subsequent execute sweep of the same cycle does not begin its
execution.  The producer's `write_cycle` is this cycle, so the consumer's
`start_exec_cycle` can only be stamped in a later cycle, i.e. at least
`write_cycle + 1`. -/
theorem claim_C6_cdb_guard (s s' : SimState) (idxs : List Nat) (j : Nat)
    (rsj rsj' : ReservationStation)
    (hsw : wbSweep idxs s = some (.next s'))
    (hj : s.res_stations.get? j = some rsj)
    (hj' : s'.res_stations.get? j = some rsj')
    (hexec : rsj.executing = false)
    (hsat : (rsj.qj ≠ none ∧ rsj'.qj = none) ∨ (rsj.qk ≠ none ∧ rsj'.qk = none)) :
    rsj'.just_wrote = true ∧ rsj'.executing = false ∧
    ∀ (c : Nat) (sts' : List ReservationStation) (prog' : List Instruction),
      execSweep c s'.res_stations s'.program = some (sts', prog') →
      ∃ rsj'', sts'.get? j = some rsj'' ∧ rsj''.executing = false := by
  obtain ⟨o', ho', hcdb⟩ := wbSweep_stations idxs s s' hsw j rsj hj
  rw [hj'] at ho'
  injection ho' with ho'
  subst ho'
  obtain ⟨he, hqj, hqk, -⟩ := hcdb
  have hex' : rsj'.executing = false := he.trans hexec
  have hjw : rsj'.just_wrote = true := by
    rcases hsat with ⟨hne, hnone⟩ | ⟨hne, hnone⟩
    · rcases hqj with hh | hh
      · exact absurd (hh.symm.trans hnone) hne
      · exact hh.2
    · rcases hqk with hh | hh
      · exact absurd (hh.symm.trans hnone) hne
      · exact hh.2
  refine ⟨hjw, hex', ?_⟩
  intro c sts' prog' hex
  exact execSweep_no_start c _ _ _ _ hex j rsj' hj' hjw hex'

/-- The RAW-hazard program of spec scenario 1. -/
def progRaw : List String := ["ADD R1, R0, R0", "ADD R2, R1, R1"]

/-- The engine state after loading `progRaw`. -/
def stateRaw : SimState := okS (load_program dummyState defaultConfig [] progRaw 0)

/-- The pre-write-back state of cycle 5 of the `progRaw` run: ADD_SUB1 is
about to broadcast, ADD_SUB2 (index 8) waits on it via `qj`/`qk`. -/
def c6s : SimState := releasePhase ((runN stateRaw 4).getD dummyState)

/-- The completed-station list of that cycle. -/
def c6idxs : List Nat := completedIdxs c6s.res_stations

/-- The state after that write-back sweep. -/
def c6s2 : SimState :=
  match wbSweep c6idxs c6s with
  | some (.next x) => x
  | _ => dummyState

/-- The waiting consumer station before the sweep. -/
def c6rsj : ReservationStation :=
  (c6s.res_stations.get? 8).getD { name := "", op_type := "", exec_cycles := 0 }

/-- The waiting consumer station after the sweep. -/
def c6rsj2 : ReservationStation :=
  (c6s2.res_stations.get? 8).getD { name := "", op_type := "", exec_cycles := 0 }

/-- Witness for `claim_C6_cdb_guard` at cycle 5 of the `progRaw` run. -/
theorem claim_C6_cdb_guard_witness :
    c6rsj2.just_wrote = true ∧ c6rsj2.executing = false ∧
    ∀ (c : Nat) (sts' : List ReservationStation) (prog' : List Instruction),
      execSweep c c6s2.res_stations c6s2.program = some (sts', prog') →
      ∃ rsj'', sts'.get? 8 = some rsj'' ∧ rsj''.executing = false :=
  claim_C6_cdb_guard c6s c6s2 c6idxs 8 c6rsj c6rsj2 (by rfl) (by rfl) (by rfl)
    (by decide) (Or.inl ⟨by decide, by decide⟩)

/-- A register operand whose parsed index lies in `0..7`. -/
def regOK (o : Operand) : Bool :=
  match regIdx? o with
  | some d => decide (d < 8)
  | none => false

/-- The claim's precondition on one operand: a register operand names one of
`R0..R7`; an immediate is unconstrained. -/
def operandRegOK (o : Operand) : Bool :=
  match o with
  | .reg _ => regOK o
  | .imm _ => true

/-- Well-formed instruction: the operand layout the parser produces for its
opcode, with every register operand in `R0..R7`. -/
def wfInstrb (ins : Instruction) : Bool :=
  if ins.opcode = "LOAD" ∨ ins.opcode = "STORE" then
    match ins.operands with
    | [.reg x, .reg y, .imm _] => regOK (.reg x) && regOK (.reg y)
    | _ => false
  else if ins.opcode = "BEQ" then
    match ins.operands with
    | [.reg x, .reg y, .imm _] => regOK (.reg x) && regOK (.reg y)
    | _ => false
  else if ins.opcode = "CALL" then
    match ins.operands with
    | [.imm _] => true
    | _ => false
  else if ins.opcode = "RET" then
    ins.operands.isEmpty
  else if ins.opcode = "ADD" ∨ ins.opcode = "SUB" ∨ ins.opcode = "NOR" ∨
      ins.opcode = "MUL" then
    match ins.operands with
    | [.reg x, .reg y, .reg z] => regOK (.reg x) && regOK (.reg y) && regOK (.reg z)
    | _ => false
  else false

theorem regOK_some (o : Operand) (h : regOK o = true) :
    ∃ d, regIdx? o = some d ∧ d < 8 := by
  unfold regOK at h
  cases hq : regIdx? o with
  | none => rw [hq] at h; exact absurd h (by decide)
  | some d => rw [hq] at h; exact ⟨d, rfl, of_decide_eq_true h⟩

theorem regOK_lt (o : Operand) (d : Nat) (h : regIdx? o = some d)
    (hOK : regOK o = true) : d < 8 := by
  unfold regOK at hOK
  rw [h] at hOK
  exact of_decide_eq_true hOK

theorem listSet?_isSome {α : Type} (l : List α) (i : Nat) (x : α)
    (h : i < l.length) : (listSet? l i x).isSome = true := by
  unfold listSet?
  rw [if_pos h]
  rfl

theorem get?_isSome_of_lt {α : Type} (l : List α) (i : Nat)
    (h : i < l.length) : ∃ a, l.get? i = some a := by
  rw [List.get?_eq_get h]
  exact ⟨_, rfl⟩

theorem readSrc_isSome (s : SimState) (r : Nat)
    (h1 : s.registers.length = 8) (h2 : s.register_status.length = 8)
    (h3 : r < 8) : ∃ v, readSrc s r = some v := by
  obtain ⟨st, hst⟩ := get?_isSome_of_lt s.register_status r (by omega)
  obtain ⟨v, hv⟩ := get?_isSome_of_lt s.registers r (by omega)
  rw [List.get?_eq_getElem?] at hst hv
  cases st with
  | none => exact ⟨.inr v, by simp [readSrc, bind, Option.bind, hst, hv, pure]⟩
  | some q => exact ⟨.inl q, by simp [readSrc, bind, Option.bind, hst, pure]⟩

theorem issueLOAD_isSome (s : SimState) (fi : Nat) (free : ReservationStation)
    (ins : Instruction) (x y : String) (n : Int)
    (hop : ins.operands = [.reg x, .reg y, .imm n])
    (hx : regOK (.reg x) = true) (hy : regOK (.reg y) = true)
    (h1 : s.registers.length = 8) (h2 : s.register_status.length = 8) :
    (issueLOAD s fi free ins).isSome = true := by
  obtain ⟨dB, hdB, hdBlt⟩ := regOK_some _ hy
  obtain ⟨dX, hdX, hdXlt⟩ := regOK_some _ hx
  obtain ⟨src, hsrc⟩ := readSrc_isSome s dB h1 h2 hdBlt
  have hset := listSet?_isSome s.register_status dX (some (setJ { free with a := some n } src).name) (by omega)
  obtain ⟨sts, hsts⟩ := Option.isSome_iff_exists.mp hset
  simp [issueLOAD, hop, bind, Option.bind, hdB, hdX, hsrc, hsts, asImm?, pure]

theorem issueSTORE_isSome (s : SimState) (fi : Nat) (free : ReservationStation)
    (ins : Instruction) (x y : String) (n : Int)
    (hop : ins.operands = [.reg x, .reg y, .imm n])
    (hx : regOK (.reg x) = true) (hy : regOK (.reg y) = true)
    (h1 : s.registers.length = 8) (h2 : s.register_status.length = 8) :
    (issueSTORE s fi free ins).isSome = true := by
  obtain ⟨dA, hdA, hdAlt⟩ := regOK_some _ hx
  obtain ⟨dB, hdB, hdBlt⟩ := regOK_some _ hy
  obtain ⟨srcB, hsrcB⟩ := readSrc_isSome s dB h1 h2 hdBlt
  obtain ⟨srcA, hsrcA⟩ := readSrc_isSome s dA h1 h2 hdAlt
  simp [issueSTORE, hop, bind, Option.bind, hdA, hdB, hsrcA, hsrcB, asImm?, pure]

theorem issueBEQ_isSome (s : SimState) (fi : Nat) (free : ReservationStation)
    (ins : Instruction) (x y : String) (n : Int)
    (hop : ins.operands = [.reg x, .reg y, .imm n])
    (hx : regOK (.reg x) = true) (hy : regOK (.reg y) = true)
    (h1 : s.registers.length = 8) (h2 : s.register_status.length = 8) :
    (issueBEQ s fi free ins).isSome = true := by
  obtain ⟨dA, hdA, hdAlt⟩ := regOK_some _ hx
  obtain ⟨dB, hdB, hdBlt⟩ := regOK_some _ hy
  obtain ⟨srcA, hsrcA⟩ := readSrc_isSome s dA h1 h2 hdAlt
  obtain ⟨srcB, hsrcB⟩ := readSrc_isSome s dB h1 h2 hdBlt
  simp [issueBEQ, hop, bind, Option.bind, hdA, hdB, hsrcA, hsrcB, pure]

theorem issueCALL_isSome (s : SimState) (fi : Nat) (free : ReservationStation)
    (ins : Instruction) (n : Int)
    (hop : ins.operands = [.imm n])
    (h2 : s.register_status.length = 8) :
    (issueCALL s fi free ins).isSome = true := by
  have hset := listSet?_isSome s.register_status 1
    (some ({ free with a := some n } : ReservationStation).name) (by omega)
  obtain ⟨sts, hsts⟩ := Option.isSome_iff_exists.mp hset
  simp [issueCALL, hop, bind, Option.bind, asImm?, hsts, pure]

theorem issueRET_isSome (s : SimState) (fi : Nat) (free : ReservationStation)
    (h1 : s.registers.length = 8) (h2 : s.register_status.length = 8) :
    (issueRET s fi free).isSome = true := by
  obtain ⟨src1, hsrc1⟩ := readSrc_isSome s 1 h1 h2 (by omega)
  simp [issueRET, bind, Option.bind, hsrc1, pure]

theorem issueALU_isSome (s : SimState) (fi : Nat) (free : ReservationStation)
    (ins : Instruction) (x y z : String)
    (hop : ins.operands = [.reg x, .reg y, .reg z])
    (hx : regOK (.reg x) = true) (hy : regOK (.reg y) = true)
    (hz : regOK (.reg z) = true)
    (h1 : s.registers.length = 8) (h2 : s.register_status.length = 8) :
    (issueALU s fi free ins).isSome = true := by
  obtain ⟨dX, hdX, hdXlt⟩ := regOK_some _ hx
  obtain ⟨dB, hdB, hdBlt⟩ := regOK_some _ hy
  obtain ⟨dC, hdC, hdClt⟩ := regOK_some _ hz
  obtain ⟨srcB, hsrcB⟩ := readSrc_isSome s dB h1 h2 hdBlt
  obtain ⟨srcC, hsrcC⟩ := readSrc_isSome s dC h1 h2 hdClt
  have hset := listSet?_isSome s.register_status dX
    (some (setK (setJ free srcB) srcC).name) (by omega)
  obtain ⟨sts, hsts⟩ := Option.isSome_iff_exists.mp hset
  simp [issueALU, hop, bind, Option.bind, hdX, hdB, hdC, hsrcB, hsrcC, hsts, pure]

theorem issueSetup_isSome (s : SimState) (fi : Nat) (free : ReservationStation)
    (ins : Instruction) (h1 : s.registers.length = 8)
    (h2 : s.register_status.length = 8) (hwf : wfInstrb ins = true) :
    (issueSetup s fi free ins).isSome = true := by
  unfold wfInstrb at hwf
  unfold issueSetup
  by_cases hLS : ins.opcode = "LOAD" ∨ ins.opcode = "STORE"
  · rw [if_pos hLS] at hwf
    split at hwf
    · rename_i x y n heq
      rw [Bool.and_eq_true] at hwf
      cases hLS with
      | inl hL =>
        rw [if_pos hL]
        exact issueLOAD_isSome s fi free ins x y n heq hwf.1 hwf.2 h1 h2
      | inr hS =>
        rw [if_neg (by rw [hS]; decide), if_pos hS]
        exact issueSTORE_isSome s fi free ins x y n heq hwf.1 hwf.2 h1 h2
    · exact absurd hwf (by decide)
  · rw [if_neg hLS] at hwf
    push_neg at hLS
    obtain ⟨hnL, hnS⟩ := hLS
    rw [if_neg hnL, if_neg hnS]
    by_cases hB : ins.opcode = "BEQ"
    · rw [if_pos hB] at hwf ⊢
      split at hwf
      · rename_i x y n heq
        rw [Bool.and_eq_true] at hwf
        exact issueBEQ_isSome s fi free ins x y n heq hwf.1 hwf.2 h1 h2
      · exact absurd hwf (by decide)
    · rw [if_neg hB] at hwf ⊢
      by_cases hC : ins.opcode = "CALL"
      · rw [if_pos hC] at hwf ⊢
        split at hwf
        · rename_i n heq
          exact issueCALL_isSome s fi free ins n heq h2
        · exact absurd hwf (by decide)
      · rw [if_neg hC] at hwf ⊢
        by_cases hR : ins.opcode = "RET"
        · rw [if_pos hR]
          exact issueRET_isSome s fi free h1 h2
        · rw [if_neg hR] at hwf ⊢
          by_cases hA : ins.opcode = "ADD" ∨ ins.opcode = "SUB" ∨
              ins.opcode = "NOR" ∨ ins.opcode = "MUL"
          · rw [if_pos hA] at hwf ⊢
            split at hwf
            · rename_i x y z heq
              rw [Bool.and_eq_true, Bool.and_eq_true] at hwf
              exact issueALU_isSome s fi free ins x y z heq hwf.1.1 hwf.1.2
                hwf.2 h1 h2
            · exact absurd hwf (by decide)
          · rw [if_neg hA] at hwf
            exact absurd hwf (by decide)

theorem parse_tokens_wf (parts : List String) (pc : Int) (ins : Instruction)
    (h : parse_tokens parts pc = Except.ok ins)
    (hall : ins.operands.all operandRegOK = true) : wfInstrb ins = true := by
  match parts with
  | [] => exact absurd h (by simp [parse_tokens])
  | opcode :: rest =>
    simp only [parse_tokens] at h
    by_cases hL : opcode = "LOAD"
    · rw [if_pos hL] at h
      split at h
      · split at h
        · injection h with h
          subst h
          subst hL
          simp only [Instruction.new, List.all_cons, List.all_nil,
            operandRegOK, Bool.and_eq_true] at hall
          simp [wfInstrb, Instruction.new, hall.1, hall.2.1]
        · exact (nomatch h)
      · exact (nomatch h)
    · rw [if_neg hL] at h
      by_cases hS : opcode = "STORE"
      · rw [if_pos hS] at h
        split at h
        · split at h
          · injection h with h
            subst h
            subst hS
            simp only [Instruction.new, List.all_cons, List.all_nil,
              operandRegOK, Bool.and_eq_true] at hall
            simp [wfInstrb, Instruction.new, hall.1, hall.2.1]
          · exact (nomatch h)
        · exact (nomatch h)
      · rw [if_neg hS] at h
        by_cases hB : opcode = "BEQ"
        · rw [if_pos hB] at h
          split at h
          · split at h
            · injection h with h
              subst h
              subst hB
              simp only [Instruction.new, List.all_cons, List.all_nil,
                operandRegOK, Bool.and_eq_true] at hall
              simp [wfInstrb, Instruction.new, hall.1, hall.2.1]
            · exact (nomatch h)
          · exact (nomatch h)
        · rw [if_neg hB] at h
          by_cases hC : opcode = "CALL"
          · rw [if_pos hC] at h
            split at h
            · split at h
              · split at h
                · injection h with h
                  subst h
                  subst hC
                  simp [wfInstrb, Instruction.new]
                · exact (nomatch h)
              · exact (nomatch h)
            · exact (nomatch h)
          · rw [if_neg hC] at h
            by_cases hR : opcode = "RET"
            · rw [if_pos hR] at h
              injection h with h
              subst h
              subst hR
              simp [wfInstrb, Instruction.new]
            · rw [if_neg hR] at h
              by_cases hA : opcode = "ADD" ∨ opcode = "SUB" ∨ opcode = "NOR" ∨
                  opcode = "MUL"
              · rw [if_pos hA] at h
                split at h
                · injection h with h
                  subst h
                  simp only [Instruction.new, List.all_cons, List.all_nil,
                    operandRegOK, Bool.and_eq_true] at hall
                  have hno : ¬ (opcode = "LOAD" ∨ opcode = "STORE") := by
                    rintro (hx | hx) <;> rcases hA with hA | hA | hA | hA <;>
                      rw [hA] at hx <;> exact (nomatch hx)
                  simp only [wfInstrb, Instruction.new]
                  rw [if_neg hno, if_neg hB, if_neg hC, if_neg hR, if_pos hA]
                  simp [hall.1, hall.2.1, hall.2.2.1]
                · exact (nomatch h)
              · rw [if_neg hA] at h
                exact (nomatch h)

theorem wbCompute_reg_bound (s s' : SimState) (rs : ReservationStation)
    (ins : Instruction) (res : Option Int) (dopt : Option Nat)
    (h : wbCompute s rs ins = some (res, dopt, s'))
    (hwf : wfInstrb ins = true) :
    (∀ d, dopt = some d → d < 8) ∧ s'.registers = s.registers ∧
      s'.register_status = s.register_status := by
  unfold wbCompute at h
  by_cases hL : ins.opcode = "LOAD"
  · rw [if_pos hL] at h
    simp only [bind, Option.bind_eq_some, pure, Option.some.injEq] at h
    obtain ⟨vj, hvj, a, ha, op0, hop0, d, hd, h⟩ := h
    simp only [Prod.mk.injEq] at h
    obtain ⟨h1, h2, h3⟩ := h
    subst h2
    subst h3
    unfold wfInstrb at hwf
    rw [if_pos (Or.inl hL)] at hwf
    split at hwf
    · rename_i x y n heq
      rw [heq] at hop0
      simp only [List.get?, Option.some.injEq] at hop0
      subst hop0
      rw [Bool.and_eq_true] at hwf
      refine ⟨?_, rfl, rfl⟩
      intro d' hd'
      injection hd' with hd'
      subst hd'
      exact regOK_lt _ d hd hwf.1
    · exact absurd hwf (by decide)
  · rw [if_neg hL] at h
    by_cases hA : ins.opcode = "ADD" ∨ ins.opcode = "SUB" ∨ ins.opcode = "NOR" ∨
        ins.opcode = "MUL"
    · rw [if_pos hA] at h
      simp only [bind, Option.bind_eq_some, pure, Option.some.injEq] at h
      obtain ⟨rB, hrB, rC, hrC, op0, hop0, d, hd, h⟩ := h
      simp only [Prod.mk.injEq] at h
      obtain ⟨h1, h2, h3⟩ := h
      subst h2
      subst h3
      unfold wfInstrb at hwf
      have hnLS : ¬ (ins.opcode = "LOAD" ∨ ins.opcode = "STORE") := by
        rintro (hx | hx) <;> rcases hA with hA | hA | hA | hA <;>
          rw [hA] at hx <;> exact (nomatch hx)
      have hnB : ¬ ins.opcode = "BEQ" := by
        intro hx; rcases hA with hA | hA | hA | hA <;> rw [hA] at hx <;>
          exact (nomatch hx)
      have hnC : ¬ ins.opcode = "CALL" := by
        intro hx; rcases hA with hA | hA | hA | hA <;> rw [hA] at hx <;>
          exact (nomatch hx)
      have hnR : ¬ ins.opcode = "RET" := by
        intro hx; rcases hA with hA | hA | hA | hA <;> rw [hA] at hx <;>
          exact (nomatch hx)
      rw [if_neg hnLS, if_neg hnB, if_neg hnC, if_neg hnR, if_pos hA] at hwf
      split at hwf
      · rename_i x y z heq
        rw [heq] at hop0
        simp only [List.get?, Option.some.injEq] at hop0
        subst hop0
        rw [Bool.and_eq_true, Bool.and_eq_true] at hwf
        refine ⟨?_, rfl, rfl⟩
        intro d' hd'
        injection hd' with hd'
        subst hd'
        exact regOK_lt _ d hd hwf.1.1
      · exact absurd hwf (by decide)
    · rw [if_neg hA] at h
      by_cases hC : ins.opcode = "CALL"
      · rw [if_pos hC] at h
        simp only [bind, Option.bind_eq_some, pure, Option.some.injEq] at h
        obtain ⟨op0, hop0, label, hlabel, h⟩ := h
        simp only [Prod.mk.injEq] at h
        obtain ⟨h1, h2, h3⟩ := h
        subst h2
        subst h3
        refine ⟨?_, rfl, rfl⟩
        intro d' hd'
        injection hd' with hd'
        omega
      · rw [if_neg hC] at h
        by_cases hR : ins.opcode = "RET"
        · rw [if_pos hR] at h
          simp only [bind, Option.bind_eq_some, pure, Option.some.injEq] at h
          obtain ⟨ra, hra, h⟩ := h
          simp only [Prod.mk.injEq] at h
          obtain ⟨h1, h2, h3⟩ := h
          subst h2
          subst h3
          exact ⟨fun d hd => (nomatch hd), rfl, rfl⟩
        · rw [if_neg hR] at h
          by_cases hS : ins.opcode = "STORE"
          · rw [if_pos hS] at h
            simp only [bind, Option.bind_eq_some, pure, Option.some.injEq] at h
            obtain ⟨vj, hvj, a, ha, vk, hvk, h⟩ := h
            simp only [Prod.mk.injEq] at h
            obtain ⟨h1, h2, h3⟩ := h
            subst h2
            subst h3
            exact ⟨fun d hd => (nomatch hd), rfl, rfl⟩
          · rw [if_neg hS] at h
            simp only [pure, Option.some.injEq] at h
            simp only [Prod.mk.injEq] at h
            obtain ⟨h1, h2, h3⟩ := h
            subst h2
            subst h3
            exact ⟨fun d hd => (nomatch hd), rfl, rfl⟩

theorem wbBroadcast_isSome (s : SimState) (rs : ReservationStation)
    (res : Option Int) (dopt : Option Nat)
    (h1 : s.registers.length = 8) (h2 : s.register_status.length = 8)
    (hd : ∀ d, dopt = some d → d < 8) :
    (wbBroadcast s rs res dopt).isSome = true := by
  match res, dopt with
  | some r, some d =>
    have hdlt := hd d rfl
    obtain ⟨cur, hcur⟩ := get?_isSome_of_lt s.register_status d (by omega)
    rw [List.get?_eq_getElem?] at hcur
    by_cases hc : cur = some rs.name
    · obtain ⟨regs, hregs⟩ := Option.isSome_iff_exists.mp
        (listSet?_isSome s.registers d r (by omega))
      obtain ⟨sts, hsts⟩ := Option.isSome_iff_exists.mp
        (listSet?_isSome s.register_status d (none : Option String) (by omega))
      simp [wbBroadcast, bind, Option.bind, hcur, hc, hregs, hsts, pure]
    · simp [wbBroadcast, bind, Option.bind, hcur, hc, pure]
  | none, none => rfl
  | none, some _ => rfl
  | some _, none => rfl

/-- C10.  The parser performs no range validation on register tokens: an
`ADD` line parses successfully with ANY register token strings kept verbatim
as operands (so `R9`, `R999` are accepted).  Under the claim's precondition —
every register operand of a parsed instruction names one of `R0..R7` — the
parsed instruction is well-formed (`wfInstrb`), and every register-file /
register-status index computed by the issue and write-back sweeps lies in
`0..7`, so those accesses never go out of bounds: on a length-8 register
file the per-opcode issue setup always succeeds, the write-back destination
index is `< 8` (with the register file and status untouched by `wbCompute`),
and the write-back register-write/CDB step always succeeds. -/
theorem claim_C10_reg_bounds :
    (∀ (a b c : String) (pc : Int),
      parse_tokens ["ADD", a, b, c] pc =
        Except.ok (Instruction.new "ADD" [.reg a, .reg b, .reg c] pc)) ∧
    (∀ (parts : List String) (pc : Int) (ins : Instruction),
      parse_tokens parts pc = Except.ok ins →
      ins.operands.all operandRegOK = true → wfInstrb ins = true) ∧
    (∀ (s : SimState) (fi : Nat) (free : ReservationStation) (ins : Instruction),
      s.registers.length = 8 → s.register_status.length = 8 →
      wfInstrb ins = true → (issueSetup s fi free ins).isSome = true) ∧
    (∀ (s s' : SimState) (rs : ReservationStation) (ins : Instruction)
      (res : Option Int) (dopt : Option Nat),
      wbCompute s rs ins = some (res, dopt, s') → wfInstrb ins = true →
      (∀ d, dopt = some d → d < 8) ∧ s'.registers = s.registers ∧
        s'.register_status = s.register_status) ∧
    (∀ (s : SimState) (rs : ReservationStation) (res : Option Int)
      (dopt : Option Nat),
      s.registers.length = 8 → s.register_status.length = 8 →
      (∀ d, dopt = some d → d < 8) → (wbBroadcast s rs res dopt).isSome = true) := by
  refine ⟨?_, ?_, ?_, ?_, ?_⟩
  · intro a b c pc
    rfl
  · exact fun parts pc ins h hall => parse_tokens_wf parts pc ins h hall
  · exact fun s fi free ins h1 h2 hwf => issueSetup_isSome s fi free ins h1 h2 hwf
  · exact fun s s' rs ins res dopt h hwf =>
      wbCompute_reg_bound s s' rs ins res dopt h hwf
  · exact fun s rs res dopt h1 h2 hd => wbBroadcast_isSome s rs res dopt h1 h2 hd

/-- Witness for `claim_C10_reg_bounds`: `R9/R10/R11` parse unvalidated; and
at the freshly loaded `stateR0` (8 registers) a concrete in-range `ADD`
issue setup, a `LOAD` write-back destination computation and a write-back
register write all stay in bounds and succeed. -/
theorem claim_C10_reg_bounds_witness :
    parse_tokens ["ADD", "R9", "R10", "R11"] 0 =
      Except.ok (Instruction.new "ADD" [.reg "R9", .reg "R10", .reg "R11"] 0) ∧
    wfInstrb (Instruction.new "ADD" [.reg "R1", .reg "R2", .reg "R3"] 0) = true ∧
    (issueSetup stateR0 0
      { name := "ADD_SUB1", op_type := "ADD_SUB", exec_cycles := 2 }
      (Instruction.new "ADD" [.reg "R1", .reg "R2", .reg "R3"] 0)).isSome = true ∧
    (∀ d, (some 1 : Option Nat) = some d → d < 8) ∧
    (wbBroadcast stateR0 { name := "LOAD1", op_type := "LOAD", exec_cycles := 5 }
      (some 5) (some 2)).isSome = true :=
  ⟨claim_C10_reg_bounds.1 "R9" "R10" "R11" 0,
   claim_C10_reg_bounds.2.1 ["ADD", "R1", "R2", "R3"] 0
     (Instruction.new "ADD" [.reg "R1", .reg "R2", .reg "R3"] 0) (by rfl) (by decide),
   claim_C10_reg_bounds.2.2.1 stateR0 0
     { name := "ADD_SUB1", op_type := "ADD_SUB", exec_cycles := 2 }
     (Instruction.new "ADD" [.reg "R1", .reg "R2", .reg "R3"] 0)
     (by decide) (by decide) (by decide),
   (claim_C10_reg_bounds.2.2.2.1 stateR0 stateR0
     { name := "LOAD1", op_type := "LOAD", exec_cycles := 5, vj := some 0,
       a := some 0 }
     (Instruction.new "LOAD" [.reg "R1", .reg "R2", .imm 0] 0)
     (some (stateR0.memory 0)) (some 1) (by rfl) (by decide)).1,
   claim_C10_reg_bounds.2.2.2.2 stateR0
     { name := "LOAD1", op_type := "LOAD", exec_cycles := 5 } (some 5) (some 2)
     (by decide) (by decide) (by intro d hd; injection hd with hd; omega)⟩
